import Mathlib

/-!
Requester: the task-dispatch pipeline.

A shallow embedding of the Go packages `internal/models`, `internal/repository`,
`internal/queue` and `internal/requester`.

Conventions of the embedding.

* Go pointers and interface values that may be `nil` are `Option`s; Go maps are
  association lists (`none` is the nil map where the code tests for it).
* The database rows and every call that leaves the process (SQL statement, HTTP
  request, SQS delete) are explicit: `World.rows` is the `tasks` table and
  `World.trace` lists the calls in the order they were issued.
* What the collaborators answer is given by `Env`. The oracles that can answer
  differently from call to call take the number of calls issued so far
  (`World.trace.length`) as a clock.
* A Go function that can panic returns an `Outcome`.
-/

namespace Requester

/-! ## Errors and outcomes -/

/-- Go `error` values. `none : Option Err` is the nil error. -/
inductive Err where
  /-- An error value handed back by a collaborator (database, HTTP client, SQS, JSON). -/
  | external (msg : String)
  /-- Result of `errors.New(msg)` or of `fmt.Errorf(msg)` without a `%w` verb. -/
  | new (msg : String)
  /-- Result of `fmt.Errorf(msg + ": %w", cause)` on a non-nil `cause`. -/
  | wrap (msg : String) (cause : Err)
  /-- Result of `fmt.Errorf(msg + ": %w", nil)`: a non-nil error that wraps nothing. -/
  | wrapNil (msg : String)
  deriving DecidableEq, Repr

/-- How a Go call ends: it returns a value, or it panics. -/
inductive Outcome (α : Type) where
  | ret (a : α)
  | panic (reason : String)
  deriving DecidableEq, Repr

/-! ## internal/models/tasks.go -/

/-- A `uuid.UUID`: 128 bits, read as a number. -/
abbrev UUID := Nat

/-- The zero value `uuid.Nil`. -/
def uuidNil : UUID := 0

/-- The four `TaskStatus` constants. -/
inductive TaskStatus where
  | New
  | Done
  | Error
  | InProcess
  deriving DecidableEq, Repr

/-- Go `models.Task`. `Body` values are raw JSON texts (`jx.Raw`). -/
structure Task where
  ID : UUID
  Status : TaskStatus
  Method : String
  URL : String
  Headers : Option (List (String × String))
  Body : Option (List (String × String))
  deriving DecidableEq, Repr

/-- Go `models.ResponseData`. -/
structure ResponseData where
  ResponseStatusCode : Option Int
  ResponseHeaders : Option (List (String × List String))
  ResponseContentLength : Option Int
  deriving DecidableEq, Repr

/-- Go `models.TaskWithResponseData`: both structs embedded. -/
structure TaskWithResponseData extends Task, ResponseData
  deriving DecidableEq, Repr

/-! ## Collaborators -/

/-- The `*http.Request` that `makeRequest` hands to the client. -/
structure Request where
  Method : String
  URL : String
  Header : List (String × List String)
  Body : Option String
  deriving DecidableEq, Repr

/-- The fields of `*http.Response` that the processor reads. The client always
allocates the header map, so it is not optional. -/
structure Response where
  StatusCode : Int
  Header : List (String × List String)
  ContentLength : Int
  deriving DecidableEq, Repr

/-- Go `repository.UpdateTaskInput`. -/
structure UpdateTaskInput where
  ID : UUID
  Status : Option TaskStatus
  ResponseStatusCode : Option Int
  ResponseHeaders : Option (List (String × List String))
  ResponseContentLength : Option Int
  deriving DecidableEq, Repr

/-- Go `sqs.Message`: every field is a pointer, `Attributes` is `map[string]*string`. -/
structure Message where
  MessageId : Option String
  ReceiptHandle : Option String
  Body : Option String
  Attributes : List (String × Option String)
  deriving DecidableEq, Repr

/-- The fields of `sqs.ReceiveMessageInput` that the worker sets. -/
structure ReceiveMessageInput where
  QueueUrl : Option String
  MaxNumberOfMessages : Int
  WaitTimeSeconds : Int
  VisibilityTimeout : Int
  AttributeNames : List String
  deriving DecidableEq, Repr

/-- A column of the `INSERT` statement of `CreateTask`, with the value bound to it. -/
inductive InsertValue where
  | status (s : TaskStatus)
  | method (m : String)
  | url (u : String)
  | headers (h : List (String × String))
  | body (b : List (String × String))
  deriving DecidableEq, Repr

/-- A call that leaves the process. -/
inductive Event where
  /-- The `SELECT ... WHERE id = $1` of `GetTask`. -/
  | getTask (id : UUID)
  /-- The `UPDATE tasks SET ... WHERE id = $n` of `UpdateTask`. -/
  | updateTask (input : UpdateTaskInput)
  /-- The `client.Do(req)` of `makeRequest`. -/
  | httpDo (req : Request)
  /-- The `DeleteMessageWithContext` of `Service.DeleteMessage`. -/
  | deleteMessage (queue : Option String) (receiptHandle : Option String)
  /-- The `ReceiveMessageWithContext` of `Service.GetMessages`. -/
  | receiveMessage (input : ReceiveMessageInput)
  /-- The `INSERT INTO tasks (...) VALUES (...) RETURNING id` of `CreateTask`. -/
  | insertTask (values : List InsertValue)
  /-- The `SendMessageWithContext` of `Service.SendMessage`, with the message body. -/
  | sendMessage (queue : Option String) (body : String)
  deriving DecidableEq, Repr

/-- A structured field of a zap log line. -/
inductive Field where
  | str (key val : String)
  | uuid (key : String) (id : UUID)
  | error (e : Err)
  | duration (key : String)
  deriving DecidableEq, Repr

/-- A `*zap.Logger`: the fields attached with `With`. -/
structure Logger where
  fields : List Field
  deriving DecidableEq, Repr

/-- Go `(*zap.Logger).With`. -/
def Logger.With (l : Logger) (f : Field) : Logger :=
  { fields := l.fields ++ [f] }

/-- Severity of a log line. -/
inductive Level where
  | info
  | error
  deriving DecidableEq, Repr

/-- One line written to the log. -/
structure LogLine where
  level : Level
  fields : List Field
  msg : String
  deriving DecidableEq, Repr

/-- The state shared by all components: the `tasks` table, the calls issued so
far and the log written so far. -/
structure World where
  rows : List TaskWithResponseData
  trace : List Event
  logs : List LogLine
  deriving DecidableEq, Repr

/-- Go `logger.Info(msg)`. -/
def World.Info (w : World) (l : Logger) (msg : String) : World :=
  { w with logs := w.logs ++ [{ level := Level.info, fields := l.fields, msg := msg }] }

/-- Go `logger.Error(msg, zap.Error(err))`. -/
def World.Error (w : World) (l : Logger) (msg : String) (e : Err) : World :=
  { w with logs := w.logs ++ [{ level := Level.error, fields := l.fields ++ [Field.error e], msg := msg }] }

/-- Record a call in the trace. -/
def World.emit (w : World) (e : Event) : World :=
  { w with trace := w.trace ++ [e] }

/-- Answers of the collaborators and of the library functions the code calls. -/
structure Env where
  /-- Failure (other than `pgx.ErrNoRows`) of the query issued at the given clock. -/
  queryErr : Nat → Option Err
  /-- Failure of the `Exec` issued at the given clock. -/
  execErr : Nat → Option Err
  /-- Go `json.Marshal` on a task body; `none` when it fails. -/
  jsonMarshal : List (String × String) → Option String
  /-- Whether `http.NewRequestWithContext` accepts the method. -/
  validMethod : String → Bool
  /-- Go `url.Parse` as used by `http.NewRequestWithContext`; `none` when it fails. -/
  urlParse : String → Option String
  /-- Go `textproto.CanonicalMIMEHeaderKey`. -/
  canonicalHeaderKey : String → String
  /-- Go `client.Do` on the request issued at the given clock. -/
  clientDo : Nat → Request → Except Err Response
  /-- Failure of the SQS delete issued at the given clock. -/
  sqsDelete : Nat → Option Err
  /-- Answer of the SQS receive issued at the given clock. -/
  sqsReceive : Nat → ReceiveMessageInput → Except Err (List Message)
  /-- Go `json.Unmarshal(body, output)` with `output : *uuid.UUID`: the body and the
  value currently held by `output` give an error or the value written. -/
  jsonUnmarshal : String → UUID → Except Err UUID
  /-- Answer of the `INSERT ... RETURNING id` issued at the given clock: a failure, or
  the identifier the database gave the new row. -/
  insertReturning : Nat → Except Err UUID
  /-- Go `json.Marshal(id)` with `id : uuid.UUID`. -/
  jsonMarshalUUID : UUID → Except Err String
  /-- Failure of the SQS send issued at the given clock. -/
  sqsSend : Nat → Option Err

/-! ## internal/repository/tasks.go -/

/-- A column assignment of the `UPDATE` statement. -/
inductive SetClause where
  | status (s : TaskStatus)
  | responseStatusCode (c : Int)
  | responseHeaders (h : List (String × List String))
  | responseContentLength (n : Int)
  deriving DecidableEq, Repr

/-- Go `(*UpdateTaskInput).setUpdateFields`: one `Set` per field that is not nil. -/
def UpdateTaskInput.setUpdateFields (i : UpdateTaskInput) : List SetClause :=
  (match i.Status with
    | some s => [SetClause.status s]
    | none => []) ++
  (match i.ResponseStatusCode with
    | some c => [SetClause.responseStatusCode c]
    | none => []) ++
  (match i.ResponseHeaders with
    | some h => [SetClause.responseHeaders h]
    | none => []) ++
  (match i.ResponseContentLength with
    | some n => [SetClause.responseContentLength n]
    | none => [])

/-- Effect of one `SET` clause on a row. -/
def SetClause.apply (row : TaskWithResponseData) : SetClause → TaskWithResponseData
  | SetClause.status s => { row with Status := s }
  | SetClause.responseStatusCode c => { row with ResponseStatusCode := some c }
  | SetClause.responseHeaders h => { row with ResponseHeaders := some h }
  | SetClause.responseContentLength n => { row with ResponseContentLength := some n }

/-- Effect of `UPDATE tasks SET <clauses> WHERE id = <id>` on one row. -/
def applyUpdate (id : UUID) (clauses : List SetClause) (row : TaskWithResponseData) :
    TaskWithResponseData :=
  if row.ID = id then clauses.foldl SetClause.apply row else row

/-- Go `taskDB.GetTask`: `.ok none` is `(nil, false, nil)`. -/
def GetTask (env : Env) (w : World) (id : UUID) :
    World × Except Err (Option TaskWithResponseData) :=
  let w1 := w.emit (Event.getTask id)
  match env.queryErr w.trace.length with
  | some e => (w1, Except.error e)
  | none =>
    match w.rows.find? (fun row => row.ID == id) with
    | none => (w1, Except.ok none)
    | some task => (w1, Except.ok (some task))

/-- Go `taskDB.UpdateTask`. An `UPDATE` without `SET` clause is refused by the
query builder before anything is sent. -/
def UpdateTask (env : Env) (w : World) (input : UpdateTaskInput) : World × Option Err :=
  if input.ID = uuidNil then
    (w, some (Err.new "input is nil or id is empty"))
  else if input.setUpdateFields = [] then
    (w, some (Err.new "update statements must have at least one Set clause"))
  else
    let w1 := w.emit (Event.updateTask input)
    match env.execErr w.trace.length with
    | some e => (w1, some e)
    | none => ({ w1 with rows := w.rows.map (applyUpdate input.ID input.setUpdateFields) }, none)

/-- Go `repository.CreateTaskInput`. -/
structure CreateTaskInput where
  Method : String
  URL : String
  Headers : Option (List (String × String))
  Body : Option (List (String × String))
  deriving DecidableEq, Repr

/-- Go `(*CreateTaskInput).setInsertValues`: the columns and the values of the
`INSERT`, `headers` and `body` only when the maps are not nil. -/
def CreateTaskInput.setInsertValues (i : CreateTaskInput) : List InsertValue :=
  [InsertValue.status TaskStatus.New, InsertValue.method i.Method, InsertValue.url i.URL] ++
  (match i.Headers with
    | some h => [InsertValue.headers h]
    | none => []) ++
  (match i.Body with
    | some b => [InsertValue.body b]
    | none => [])

/-- Effect of one column of the `INSERT` on the new row. -/
def InsertValue.apply (row : TaskWithResponseData) : InsertValue → TaskWithResponseData
  | InsertValue.status s => { row with Status := s }
  | InsertValue.method m => { row with Method := m }
  | InsertValue.url u => { row with URL := u }
  | InsertValue.headers h => { row with Headers := some h }
  | InsertValue.body b => { row with Body := some b }

/-- Modelled from the spec: the declaration of the `tasks` table (the migrations)
is not among the sources. The spec gives `headers`, `body` and the three response
fields as optional and a created task as stored with no response fields, so a
column that the `INSERT` does not list is NULL in the new row; `status`, `method`
and `url` are always listed. -/
def insertedRow (id : UUID) (values : List InsertValue) : TaskWithResponseData :=
  values.foldl InsertValue.apply
    { ID := id, Status := TaskStatus.New, Method := "", URL := "", Headers := none, Body := none,
      ResponseStatusCode := none, ResponseHeaders := none, ResponseContentLength := none }

/-- Go `taskDB.CreateTask`: the pair `(task, err)`. The task is returned also when
the scan of the identifier fails; its `ID` is then the zero value. -/
def CreateTask (env : Env) (w : World) (input : Option CreateTaskInput) :
    World × Option Task × Option Err :=
  match input with
  | none => (w, none, some (Err.new "input is nil"))
  | some i =>
    let task : Task :=
      { ID := uuidNil, Status := TaskStatus.New, Method := i.Method, URL := i.URL,
        Headers := i.Headers, Body := i.Body }
    let w1 := w.emit (Event.insertTask i.setInsertValues)
    match env.insertReturning w.trace.length with
    | Except.error e => (w1, some task, some e)
    | Except.ok id =>
      ({ w1 with rows := w.rows ++ [insertedRow id i.setInsertValues] },
        some { task with ID := id }, none)

/-! ## internal/requester/processor.go -/

/-- Go `processor`: the repository is the `tasks` table of the world, the client
is `Env.clientDo`. -/
structure processor where
  logger : Logger
  deriving DecidableEq, Repr

/-- What `updateTask` leaves behind: the world, the task and the input it was
given (both are mutated through their pointers) and the returned error. -/
structure UpdateResult where
  world : World
  task : TaskWithResponseData
  input : UpdateTaskInput
  out : Outcome (Option Err)

/-- Go `processor.updateTask`. -/
def processor.updateTask (env : Env) (w : World) (task : TaskWithResponseData)
    (input : UpdateTaskInput) : UpdateResult :=
  if task.Status = TaskStatus.Done then
    { world := w, task := task, input := input, out := Outcome.ret none }
  else
    let input1 := { input with ID := task.ID }
    match input1.Status with
    | none =>
      { world := w, task := task, input := input1,
        out := Outcome.panic "nil pointer dereference" }
    | some s =>
      let task1 : TaskWithResponseData :=
        { task with
          Status := s
          ResponseHeaders := input1.ResponseHeaders
          ResponseStatusCode := input1.ResponseStatusCode
          ResponseContentLength := input1.ResponseContentLength }
      let r := UpdateTask env w input1
      { world := r.1, task := task1, input := input1, out := Outcome.ret r.2 }

/-- Go `http.Header.Set`: the canonical key gets the single value. -/
def headerSet (env : Env) (h : List (String × List String)) (k v : String) :
    List (String × List String) :=
  let ck := env.canonicalHeaderKey k
  if h.any (fun kv => kv.1 == ck) then
    h.map (fun kv => if kv.1 == ck then (ck, [v]) else kv)
  else
    h ++ [(ck, [v])]

/-- The request of `makeRequest`: `none` on the two paths that `return nil, nil`
(the body cannot be marshalled, or `http.NewRequestWithContext` fails). -/
def buildRequest (env : Env) (task : Task) : Option Request :=
  let body : Option (Option String) :=
    match task.Body with
    | none => some none
    | some b =>
      match env.jsonMarshal b with
      | none => none
      | some data => some (some data)
  match body with
  | none => none
  | some body =>
    let method := if task.Method = "" then "GET" else task.Method
    if env.validMethod method then
      match env.urlParse task.URL with
      | none => none
      | some u =>
        some { Method := method
               URL := u
               Header := (task.Headers.getD []).foldl (fun h kv => headerSet env h kv.1 kv.2) []
               Body := body }
    else none

/-- Go `processor.makeRequest`: the pair `(resp, err)`. -/
def processor.makeRequest (env : Env) (w : World) (task : Task) :
    World × Option Response × Option Err :=
  match buildRequest env task with
  | none => (w, none, none)
  | some req =>
    match env.clientDo w.trace.length req with
    | Except.ok resp => (w.emit (Event.httpDo req), some resp, none)
    | Except.error e => (w.emit (Event.httpDo req), none, some e)

/-- Body of `ProcessTask` after the two early returns and the registration of the
deferred update: the statements from the `InProcess` update to the final return. -/
def processor.processLoaded (env : Env) (w : World) (task : TaskWithResponseData) :
    UpdateResult :=
  let u1 := processor.updateTask env w task
    { ID := uuidNil, Status := some TaskStatus.InProcess, ResponseStatusCode := none,
      ResponseHeaders := none, ResponseContentLength := none }
  match u1.out with
  | Outcome.panic p => { u1 with out := Outcome.panic p }
  | Outcome.ret (some e) => { u1 with out := Outcome.ret (some e) }
  | Outcome.ret none =>
    match processor.makeRequest env u1.world u1.task.toTask with
    | (w2, _, some e) =>
      { world := w2, task := u1.task, input := u1.input, out := Outcome.ret (some e) }
    | (w2, none, none) =>
      -- `defer resp.Body.Close()` evaluates `resp.Body` on a nil `resp`
      { world := w2, task := u1.task, input := u1.input,
        out := Outcome.panic "nil pointer dereference" }
    | (w2, some resp, none) =>
      processor.updateTask env w2 u1.task
        { ID := uuidNil, Status := some TaskStatus.Done,
          ResponseStatusCode := some resp.StatusCode,
          ResponseHeaders := some resp.Header,
          ResponseContentLength := some resp.ContentLength }

/-- Go `processor.ProcessTask`. The deferred closure runs on every exit after the
`Done` check, also when the body panics; it cannot change the returned error. -/
def processor.ProcessTask (env : Env) (r : processor) (w : World) (taskID : UUID) :
    World × Outcome (Option Err) :=
  let logg := r.logger.With (Field.uuid "task_id" taskID)
  match GetTask env w taskID with
  | (w1, Except.error e) => (w1, Outcome.ret (some e))
  | (w1, Except.ok none) => (w1.Info logg "task not found", Outcome.ret none)
  | (w1, Except.ok (some task)) =>
    if task.Status = TaskStatus.Done then
      (w1.Info logg "task already done", Outcome.ret none)
    else
      let body := processor.processLoaded env w1 task
      let d := processor.updateTask env body.world body.task
        { ID := uuidNil, Status := some TaskStatus.Error, ResponseStatusCode := none,
          ResponseHeaders := none, ResponseContentLength := none }
      match d.out with
      | Outcome.panic p => (d.world, Outcome.panic p)
      | Outcome.ret (some e) => (d.world.Error logg "failed to update task status" e, body.out)
      | Outcome.ret none => (d.world, body.out)

/-- Go `processor.WithLogger`. -/
def processor.WithLogger (_r : processor) (logger : Logger) : processor :=
  { logger := logger }

/-- Run `ProcessTask` on the same identifier `n` times in a row; the outcomes are
listed first call first. -/
def processor.ProcessTaskN (env : Env) (r : processor) (w : World) (taskID : UUID) :
    Nat → World × List (Outcome (Option Err))
  | 0 => (w, [])
  | n + 1 =>
    let first := processor.ProcessTask env r w taskID
    let rest := processor.ProcessTaskN env r first.1 taskID n
    (rest.1, first.2 :: rest.2)

/-- The `UpdateTaskInput` of a status-only transition, once `updateTask` has set
its identifier. -/
def statusUpdate (id : UUID) (s : TaskStatus) : UpdateTaskInput :=
  { ID := id, Status := some s, ResponseStatusCode := none, ResponseHeaders := none,
    ResponseContentLength := none }

/-- The `UpdateTaskInput` of the transition to `Done` on a response, once
`updateTask` has set its identifier. -/
def doneUpdate (id : UUID) (resp : Response) : UpdateTaskInput :=
  { ID := id, Status := some TaskStatus.Done, ResponseStatusCode := some resp.StatusCode,
    ResponseHeaders := some resp.Header, ResponseContentLength := some resp.ContentLength }

/-! ## internal/queue -/

/-- Go `queue.SQSParams`; the timeout is a `time.Duration` in nanoseconds. -/
structure SQSParams where
  VisibilityTimeout : Int
  MaxMessageAttempts : Int
  deriving DecidableEq, Repr

/-- Go `queue.Config`. -/
structure Config extends SQSParams where
  URL : String
  KeyID : String
  SecretKey : String
  Region : String
  Debug : Bool
  deriving DecidableEq, Repr

/-- Go `queue.Service`; the SQS client is `Env.sqsDelete` and `Env.sqsReceive`. -/
structure Service where
  cfg : Config
  deriving DecidableEq, Repr

/-- The constant `sqs.MessageSystemAttributeNameApproximateReceiveCount`. -/
def MessageSystemAttributeNameApproximateReceiveCount : String := "ApproximateReceiveCount"

/-- How the digit loop of Go `strconv.ParseUint` ends. -/
inductive UintResult where
  | ok (n : Nat)
  | syntaxError
  | rangeError
  deriving DecidableEq, Repr

/-- The loop of `strconv.ParseUint(s, 10, 64)` over the bytes that are left, `n`
being the value read so far: a byte that is not a decimal digit is a syntax error,
and the loop stops with a range error as soon as the value leaves 64 bits (the
bytes after that point are not looked at). -/
def parseUintLoop : List Char → Nat → UintResult
  | [], n => UintResult.ok n
  | c :: cs, n =>
    if !c.isDigit then UintResult.syntaxError
    else if n ≥ 1844674407370955162 then UintResult.rangeError
    else if n * 10 + (c.toNat - 48) > 18446744073709551615 then UintResult.rangeError
    else parseUintLoop cs (n * 10 + (c.toNat - 48))

/-- Go `strconv.ParseUint(s, 10, 64)`; the empty string is a syntax error. -/
def ParseUint (s : List Char) : UintResult :=
  if s.isEmpty then UintResult.syntaxError else parseUintLoop s 0

/-- The value of Go `strconv.Atoi` on a 64-bit platform (its error is discarded by
the caller): an optional sign, then `ParseUint`; `0` on a syntax error, the nearest
bound of `int64` on a range error or when the magnitude does not fit. -/
def Atoi (s : String) : Int :=
  match s.toList with
  | [] => 0
  | c :: rest =>
    let neg : Bool := c == '-'
    let digits := if c == '+' || c == '-' then rest else c :: rest
    match ParseUint digits with
    | UintResult.syntaxError => 0
    | UintResult.rangeError => if neg then -(9223372036854775808 : Int) else 9223372036854775807
    | UintResult.ok un =>
      if !neg && un ≥ 9223372036854775808 then 9223372036854775807
      else if neg && un > 9223372036854775808 then -(9223372036854775808 : Int)
      else if neg then -(un : Int)
      else (un : Int)

/-- Go `(*Service).VisibilityTimeout`. -/
def Service.VisibilityTimeout (svc : Service) : Int :=
  svc.cfg.VisibilityTimeout

/-- Go `(*Service).DeleteMessage`. -/
def Service.DeleteMessage (env : Env) (_svc : Service) (w : World) (queue : Option String)
    (message : Message) : World × Option Err :=
  (w.emit (Event.deleteMessage queue message.ReceiptHandle), env.sqsDelete w.trace.length)

/-- Go `(*Service).GetMessages`. -/
def Service.GetMessages (env : Env) (_svc : Service) (w : World) (input : ReceiveMessageInput) :
    World × Except Err (List Message) :=
  (w.emit (Event.receiveMessage input), env.sqsReceive w.trace.length input)

/-- Go `(*Service).SendMessage` on a task identifier, the payload `CreateTask` of
the API sends: the body of the message is the output of `json.Marshal`. -/
def Service.SendMessage (env : Env) (_svc : Service) (w : World) (queue : Option String)
    (message : UUID) : World × Option Err :=
  match env.jsonMarshalUUID message with
  | Except.error e => (w, some e)
  | Except.ok messageBody =>
    (w.emit (Event.sendMessage queue messageBody), env.sqsSend w.trace.length)

/-- The second half of `DecodeMessage`: the `json.Unmarshal` of the body and the
deletion of a body that does not parse. The error of `json.Unmarshal` is
overwritten by the result of `DeleteMessage` before it is wrapped. -/
def Service.decodeBody (env : Env) (svc : Service) (w : World) (queueURL : Option String)
    (message : Message) (output : UUID) : World × Outcome (Option Err × UUID) :=
  match message.Body with
  | none => (w, Outcome.panic "nil pointer dereference")
  | some body =>
    match env.jsonUnmarshal body output with
    | Except.error _ =>
      match Service.DeleteMessage env svc w queueURL message with
      | (w1, some e) => (w1, Outcome.ret (some e, output))
      | (w1, none) => (w1, Outcome.ret (some (Err.wrapNil "unable to decode the message"), output))
    | Except.ok v => (w, Outcome.ret (none, v))

/-- Go `(*Service).DecodeMessage` with a `*uuid.UUID` output: `output` is the value
the pointer holds on entry, the returned identifier is the value it holds on exit. -/
def Service.DecodeMessage (env : Env) (svc : Service) (w : World) (queueURL : Option String)
    (message : Message) (output : UUID) : World × Outcome (Option Err × UUID) :=
  match message.Attributes.lookup MessageSystemAttributeNameApproximateReceiveCount with
  | some receiveCount =>
    if !svc.cfg.Debug then
      match receiveCount with
      | none => (w, Outcome.panic "nil pointer dereference")
      | some rc =>
        let cnt := Atoi rc
        if cnt > svc.cfg.MaxMessageAttempts then
          match Service.DeleteMessage env svc w queueURL message with
          | (w1, some e) => (w1, Outcome.ret (some e, output))
          | (w1, none) =>
            (w1, Outcome.ret
              (some (Err.new ("message has been received " ++ toString cnt ++ " times. Deleted")),
                output))
        else Service.decodeBody env svc w queueURL message output
    else Service.decodeBody env svc w queueURL message output
  | none => Service.decodeBody env svc w queueURL message output

/-! ## The JSON form of a task identifier

`json.Marshal` and `json.Unmarshal` on a `uuid.UUID` (package `github.com/google/uuid`),
an array of sixteen bytes that implements `encoding.TextMarshaler` and, through its
pointer, `encoding.TextUnmarshaler`: the JSON form is the string literal of the
canonical text. -/

/-- Byte `i` of a `uuid.UUID`, the first byte being the most significant. -/
def UUID.byte (id : UUID) (i : Nat) : Nat :=
  id / 256 ^ (15 - i) % 256

/-- The sixteen bytes of a `uuid.UUID`. -/
def UUID.bytes (id : UUID) : List Nat :=
  (List.range 16).map id.byte

/-- The `uuid.UUID` with the given bytes. -/
def UUID.ofBytes (bytes : List Nat) : UUID :=
  bytes.foldl (fun acc b => acc * 256 + b) 0

/-- The table `"0123456789abcdef"` of Go `hex.Encode`. -/
def hextable (n : Nat) : Char :=
  "0123456789abcdef".toList.getD n '0'

/-- Go `hex.Encode`: two digits per byte, the high one first. -/
def hexEncode : List Nat → List Char
  | [] => []
  | v :: rest => hextable (v / 16) :: hextable (v % 16) :: hexEncode rest

/-- The function `encodeHex` of `google/uuid`: the bytes in groups of 4, 2, 2, 2 and 6,
with a dash between the groups. -/
def encodeHex (uuid : List Nat) : List Char :=
  hexEncode (uuid.take 4) ++ '-' :: hexEncode ((uuid.drop 4).take 2) ++
    '-' :: hexEncode ((uuid.drop 6).take 2) ++ '-' :: hexEncode ((uuid.drop 8).take 2) ++
    '-' :: hexEncode (uuid.drop 10)

/-- Go `UUID.MarshalText`: the 36 characters of the canonical form. -/
def UUID.MarshalText (id : UUID) : List Char :=
  encodeHex id.bytes

/-- Go `json.Marshal` on a `uuid.UUID`: the text between double quotes; none of its
characters is escaped. -/
def marshalUUID (id : UUID) : String :=
  String.mk ('"' :: id.MarshalText ++ ['"'])

/-- The table `xvalues` of `google/uuid`: the value of a hexadecimal digit, in either
case; `none` stands for the entry 255 of the other bytes. -/
def xvalue (c : Char) : Option Nat :=
  if '0' ≤ c ∧ c ≤ '9' then some (c.toNat - 48)
  else if 'a' ≤ c ∧ c ≤ 'f' then some (c.toNat - 87)
  else if 'A' ≤ c ∧ c ≤ 'F' then some (c.toNat - 55)
  else none

/-- The function `xtob` of `google/uuid`: the byte two hexadecimal digits stand for. -/
def xtob (x1 x2 : Char) : Option Nat :=
  match xvalue x1, xvalue x2 with
  | some b1, some b2 => some (b1 * 16 + b2)
  | _, _ => none

/-- The loop of `uuid.ParseBytes` over the offsets of the pairs of digits: the bytes
read, or `none` when a pair is not hexadecimal. -/
def readPairs (b : List Char) : List Nat → Option (List Nat)
  | [] => some []
  | x :: rest =>
    match xtob (b.getD x ' ') (b.getD (x + 1) ' ') with
    | none => none
    | some v =>
      match readPairs b rest with
      | none => none
      | some vs => some (v :: vs)

/-- Go `uuid.ParseBytes` on 36 bytes, the case of the canonical form: the four dashes
are checked, then the sixteen pairs of digits are read. -/
def parseCanonical (b : List Char) : Except Err UUID :=
  if b.getD 8 ' ' ≠ '-' ∨ b.getD 13 ' ' ≠ '-' ∨ b.getD 18 ' ' ≠ '-' ∨ b.getD 23 ' ' ≠ '-' then
    Except.error (Err.external "invalid UUID format")
  else
    match readPairs b [0, 2, 4, 6, 9, 11, 14, 16, 19, 21, 24, 26, 28, 30, 32, 34] with
    | none => Except.error (Err.external "invalid UUID format")
    | some bytes => Except.ok (UUID.ofBytes bytes)

/-- A character that stands for itself in a JSON string literal and takes one byte. -/
def plainChar (c : Char) : Bool :=
  decide (32 ≤ c.toNat) && decide (c.toNat < 128) && c != '"' && c != '\\'

/-- The text of a body that is one JSON string literal without escape sequences, in
ASCII, and nothing else. -/
def plainLiteral (body : String) : Option (List Char) :=
  match body.toList with
  | '"' :: rest =>
    if rest.getLast? = some '"' ∧ rest.dropLast.all plainChar = true then some rest.dropLast
    else none
  | _ => none

/-- Go `json.Unmarshal(body, output)` with `output : *uuid.UUID`. A body that is a
plain string literal of 36 bytes is unquoted and handed to `UUID.UnmarshalText`, which
parses it with `uuid.ParseBytes` and writes the identifier on success. What the
library answers on any other body is given by `other`. -/
def unmarshalUUID (other : String → UUID → Except Err UUID) (body : String) (output : UUID) :
    Except Err UUID :=
  match plainLiteral body with
  | some text => if text.length = 36 then parseCanonical text else other body output
  | none => other body output

/-- The collaborators with the JSON form of the task identifier as the two libraries
produce and read it. -/
def Env.withUUIDCodec (env : Env) : Env :=
  { env with
    jsonMarshalUUID := fun id => Except.ok (marshalUUID id)
    jsonUnmarshal := unmarshalUUID env.jsonUnmarshal }

/-! ## internal/requester/worker.go -/

/-- Go interface `messageReceiver`, as the method table of an implementation `R`. -/
structure messageReceiver (R : Type) where
  VisibilityTimeout : R → Int
  DecodeMessage : R → World → Option String → Message → UUID → World × Outcome (Option Err × UUID)
  GetMessages : R → World → ReceiveMessageInput → World × Outcome (Except Err (List Message))
  DeleteMessage : R → World → Option String → Message → World × Outcome (Option Err)

/-- Go interface `Processor`, as the method table of an implementation `P`. -/
structure Processor (P : Type) where
  ProcessTask : P → World → UUID → World × Outcome (Option Err)
  WithLogger : P → Logger → P

/-- The `*queue.Service` as a `messageReceiver`. -/
def Service.asReceiver (env : Env) : messageReceiver Service where
  VisibilityTimeout := Service.VisibilityTimeout
  DecodeMessage := Service.DecodeMessage env
  GetMessages := fun svc w input =>
    ((Service.GetMessages env svc w input).1, Outcome.ret (Service.GetMessages env svc w input).2)
  DeleteMessage := fun svc w queue message =>
    ((Service.DeleteMessage env svc w queue message).1,
      Outcome.ret (Service.DeleteMessage env svc w queue message).2)

/-- The `processor` as a `Processor`. -/
def processor.asProcessor (env : Env) : Processor processor where
  ProcessTask := processor.ProcessTask env
  WithLogger := processor.WithLogger

/-- Go `Worker`. The fields are unexported and set only by `NewWorker`, which
refuses absent values, so they are not optional here. -/
structure Worker (R P : Type) where
  queueURL : String
  workers : Int
  receiver : R
  processor : P
  logger : Logger

/-- Go `NewWorker`. -/
def NewWorker {R P : Type} (queueURL : Option String) (workers : Int) (receiver : Option R)
    (processor : Option P) (logger : Option Logger) : Except Err (Worker R P) :=
  if workers > 10 then Except.error (Err.new "max workers count is 10")
  else
    match queueURL with
    | none => Except.error (Err.new "must specify queueURL")
    | some q =>
      match receiver with
      | none => Except.error (Err.new "must specify Receiver")
      | some r =>
        match processor with
        | none => Except.error (Err.new "must specify Processor")
        | some p =>
          match logger with
          | none => Except.error (Err.new "must specify logger")
          | some l =>
            Except.ok { queueURL := q, workers := workers, receiver := r, processor := p, logger := l }

/-- The logger `handleMessage` derives from the worker's:
`w.logger.With(zap.String("MessageId", *sqsMsg.MessageId))`. -/
def Worker.messageLogger {R P : Type} (wk : Worker R P) (messageId : String) : Logger :=
  wk.logger.With (Field.str "MessageId" messageId)

/-- A method that `handleMessage` invoked on one of its two collaborators. -/
inductive Call where
  | DecodeMessage (message : Message)
  | ProcessTask (taskID : UUID)
  | DeleteMessage (message : Message)
  deriving DecidableEq, Repr

/-- What `handleMessage` leaves behind: the world, the collaborator methods it
invoked (in order) and how it ended. -/
structure HandleResult where
  world : World
  calls : List Call
  out : Outcome Unit

/-- Go `(*Worker).handleMessage`. The task identifier starts as the zero value
(`var taskID uuid.UUID`) and `DecodeMessage` writes it through `&taskID`. -/
def Worker.handleMessage {R P : Type} (recv : messageReceiver R) (proc : Processor P)
    (wk : Worker R P) (w : World) (sqsMsg : Message) : HandleResult :=
  match sqsMsg.MessageId with
  | none => { world := w, calls := [], out := Outcome.panic "nil pointer dereference" }
  | some messageId =>
    let logg := wk.messageLogger messageId
    let w0 := w.Info logg "Message received for processing"
    match recv.DecodeMessage wk.receiver w0 (some wk.queueURL) sqsMsg uuidNil with
    | (w1, Outcome.panic p) =>
      { world := w1, calls := [Call.DecodeMessage sqsMsg], out := Outcome.panic p }
    | (w1, Outcome.ret (some e, _)) =>
      { world := w1.Error logg "Error decoding the message" e,
        calls := [Call.DecodeMessage sqsMsg], out := Outcome.ret () }
    | (w1, Outcome.ret (none, taskID)) =>
      match proc.ProcessTask (proc.WithLogger wk.processor logg) w1 taskID with
      | (w2, Outcome.panic p) =>
        { world := w2, calls := [Call.DecodeMessage sqsMsg, Call.ProcessTask taskID],
          out := Outcome.panic p }
      | (w2, Outcome.ret (some e)) =>
        { world := w2.Error logg "Error processing the message" e,
          calls := [Call.DecodeMessage sqsMsg, Call.ProcessTask taskID], out := Outcome.ret () }
      | (w2, Outcome.ret none) =>
        match recv.DeleteMessage wk.receiver w2 (some wk.queueURL) sqsMsg with
        | (w3, Outcome.panic p) =>
          { world := w3,
            calls := [Call.DecodeMessage sqsMsg, Call.ProcessTask taskID,
              Call.DeleteMessage sqsMsg],
            out := Outcome.panic p }
        | (w3, Outcome.ret (some e)) =>
          { world := w3.Error logg "Error deleting the message" e,
            calls := [Call.DecodeMessage sqsMsg, Call.ProcessTask taskID,
              Call.DeleteMessage sqsMsg],
            out := Outcome.ret () }
        | (w3, Outcome.ret none) =>
          { world := w3.Info (logg.With (Field.duration "Duration"))
              "Successfully processed the message",
            calls := [Call.DecodeMessage sqsMsg, Call.ProcessTask taskID,
              Call.DeleteMessage sqsMsg],
            out := Outcome.ret () }

/-! ## Notions used to state the properties -/

/-- The statuses of the `UPDATE` statements in a list of calls, in the order they
were issued. -/
def writtenStatuses (events : List Event) : List TaskStatus :=
  events.filterMap (fun e =>
    match e with
    | Event.updateTask input => input.Status
    | _ => none)

/-- A task as `CreateTask` stores it: status `New`, no response field. -/
def TaskWithResponseData.fresh (row : TaskWithResponseData) : Prop :=
  row.Status = TaskStatus.New ∧ row.ResponseStatusCode = none ∧ row.ResponseHeaders = none ∧
    row.ResponseContentLength = none

/-- A table of freshly created tasks; the identifiers are pairwise distinct. -/
def World.initial (w : World) : Prop :=
  (∀ row ∈ w.rows, row.fresh) ∧ (w.rows.map (fun row => row.ID)).Nodup

/-- The states a sequence of `ProcessTask` invocations, one after the other, leads
to; each invocation has its own identifier, processor and collaborators. -/
inductive Steps : World → World → Prop where
  | refl (w : World) : Steps w w
  | step {w w1 : World} (env : Env) (r : processor) (taskID : UUID) :
    Steps w w1 → Steps w (processor.ProcessTask env r w1 taskID).1

/-- The response status code and the content length of a row are set exactly when
its status is `Done`. -/
def responseSetIffDone (row : TaskWithResponseData) : Prop :=
  (row.ResponseStatusCode ≠ none ↔ row.Status = TaskStatus.Done) ∧
  (row.ResponseContentLength ≠ none ↔ row.Status = TaskStatus.Done)

/-- Go `http.Header.Get`: the first value under the canonical key, the empty string
when there is none. -/
def headerGet (env : Env) (h : List (String × List String)) (k : String) : String :=
  match h.lookup (env.canonicalHeaderKey k) with
  | some (v :: _) => v
  | _ => ""

/-- The bytes Go accepts in a header name (`validHeaderFieldByte`): letters, digits
and the punctuation of an HTTP token. -/
def validHeaderFieldByte (c : Char) : Bool :=
  c.isAlphanum ||
    [33, 35, 36, 37, 38, 39, 42, 43, 45, 46, 94, 95, 96, 124, 126].contains c.toNat

/-- The rewriting loop of Go `textproto.CanonicalMIMEHeaderKey`: upper case at the
start and after a hyphen, lower case elsewhere. -/
def canonicalLoop : Bool → List Char → List Char
  | _, [] => []
  | upper, c :: cs => (if upper then c.toUpper else c.toLower) :: canonicalLoop (c == '-') cs

/-- Go `textproto.CanonicalMIMEHeaderKey`: a name with a byte that is not allowed
in a header name is returned unchanged. -/
def CanonicalMIMEHeaderKey (s : String) : String :=
  if s.toList.all validHeaderFieldByte then String.mk (canonicalLoop true s.toList) else s

/-- Whether `target` is `e` itself or one of the errors `e` wraps. -/
def Err.surfaces : Err → Err → Bool
  | Err.wrap msg cause, target =>
    Err.wrap msg cause == target || Err.surfaces cause target
  | e, target => e == target

/-! ## internal/requester/worker.go: the pool member -/

/-- Go `time.Second`, a `time.Duration` in nanoseconds. -/
def timeSecond : Int := 1000000000

/-- What `receiveMessages` hands to the receiver: the timeout of the context it
derives with `context.WithTimeout`, and the input. -/
structure ReceiveCall where
  timeout : Int
  input : ReceiveMessageInput
  deriving DecidableEq, Repr

/-- The context and the input `receiveMessages` builds. The division of durations is
the integer division of Go, which truncates. -/
def Worker.receiveCall {R P : Type} (recv : messageReceiver R) (wk : Worker R P) : ReceiveCall where
  timeout := 20 * timeSecond
  input :=
    { QueueUrl := some wk.queueURL
      MaxNumberOfMessages := wk.workers
      WaitTimeSeconds := 10
      VisibilityTimeout := (recv.VisibilityTimeout wk.receiver).tdiv timeSecond
      AttributeNames := [MessageSystemAttributeNameApproximateReceiveCount] }

/-- Go `(*Worker).receiveMessages`. -/
def Worker.receiveMessages {R P : Type} (recv : messageReceiver R) (wk : Worker R P)
    (w : World) : World × Outcome (Except Err (List Message)) :=
  recv.GetMessages wk.receiver w (wk.receiveCall recv).input

/-! ## internal/requester/worker.go: the pool

`WatchMessages` along a schedule: which goroutine takes its next step. The handling
of a message by a pool member is taken as one step. -/

/-- Go `errors.Unwrap`: the error wrapped with `%w`, if there is one. -/
def Err.Unwrap : Err → Option Err
  | Err.wrap _ cause => some cause
  | _ => none

/-! ## Successive and overlapping invocations of the processor

Between two of its calls to the store or to the HTTP client an invocation of
`ProcessTask` touches nothing that another invocation can see, so overlapping
invocations are interleaved call by call. -/

/-- Successive calls of `updateTask` on the same task, as in `Test_updateTask`: each
call works on the world and the in-memory task the one before left. -/
def processor.updateTaskSeq (env : Env) :
    World → TaskWithResponseData → List UpdateTaskInput → World × TaskWithResponseData
  | w, task, [] => (w, task)
  | w, task, input :: rest =>
    processor.updateTaskSeq env (processor.updateTask env w task input).world
      (processor.updateTask env w task input).task rest

/-- Where one invocation of `ProcessTask` stands between two of its calls to the
store or to the HTTP client, with the task it holds in memory. -/
inductive RunState where
  /-- Nothing done yet. -/
  | start
  /-- The task is loaded and is not `Done`; the deferred closure is registered. -/
  | loaded (task : TaskWithResponseData)
  /-- The `InProcess` update has returned without error. -/
  | updated (task : TaskWithResponseData)
  /-- The client has answered with a response. -/
  | responded (task : TaskWithResponseData) (resp : Response)
  /-- The body is over with result `out`; the deferred closure has not run yet. -/
  | deferring (task : TaskWithResponseData) (out : Outcome (Option Err))
  /-- The invocation is over. -/
  | finished (task : Option TaskWithResponseData) (out : Outcome (Option Err))
  deriving DecidableEq, Repr

/-- One step of `ProcessTask`: the statements up to and including the next call to
the store or to the HTTP client. -/
def processor.step (env : Env) (r : processor) (taskID : UUID) (w : World) :
    RunState → World × RunState
  | RunState.start =>
    match GetTask env w taskID with
    | (w1, Except.error e) => (w1, RunState.finished none (Outcome.ret (some e)))
    | (w1, Except.ok none) =>
      (w1.Info (r.logger.With (Field.uuid "task_id" taskID)) "task not found",
        RunState.finished none (Outcome.ret none))
    | (w1, Except.ok (some task)) =>
      if task.Status = TaskStatus.Done then
        (w1.Info (r.logger.With (Field.uuid "task_id" taskID)) "task already done",
          RunState.finished (some task) (Outcome.ret none))
      else (w1, RunState.loaded task)
  | RunState.loaded task =>
    let u := processor.updateTask env w task (statusUpdate uuidNil TaskStatus.InProcess)
    match u.out with
    | Outcome.ret none => (u.world, RunState.updated u.task)
    | out => (u.world, RunState.deferring u.task out)
  | RunState.updated task =>
    match processor.makeRequest env w task.toTask with
    | (w2, _, some e) => (w2, RunState.deferring task (Outcome.ret (some e)))
    | (w2, none, none) => (w2, RunState.deferring task (Outcome.panic "nil pointer dereference"))
    | (w2, some resp, none) => (w2, RunState.responded task resp)
  | RunState.responded task resp =>
    let u := processor.updateTask env w task (doneUpdate uuidNil resp)
    (u.world, RunState.deferring u.task u.out)
  | RunState.deferring task out =>
    let d := processor.updateTask env w task (statusUpdate uuidNil TaskStatus.Error)
    match d.out with
    | Outcome.panic p => (d.world, RunState.finished (some d.task) (Outcome.panic p))
    | Outcome.ret (some e) =>
      (d.world.Error (r.logger.With (Field.uuid "task_id" taskID))
        "failed to update task status" e, RunState.finished (some d.task) out)
    | Outcome.ret none => (d.world, RunState.finished (some d.task) out)
  | RunState.finished task out => (w, RunState.finished task out)

/-- An invocation run alone for `n` steps. -/
def processor.steps (env : Env) (r : processor) (taskID : UUID) :
    Nat → World × RunState → World × RunState
  | 0, s => s
  | n + 1, s => processor.steps env r taskID n (processor.step env r taskID s.1 s.2)

/-- The task the invocation holds in memory once it has set it to `Done`. -/
def RunState.doneTask : RunState → Option TaskWithResponseData
  | RunState.deferring t _ => if t.Status = TaskStatus.Done then some t else none
  | RunState.finished (some t) _ => if t.Status = TaskStatus.Done then some t else none
  | _ => none

/-- Collaborators that always succeed; the HTTP server answers like the mock of
`prepareHttpMock`, and the only body that parses is the JSON string of task `7`. -/
def sampleEnv : Env where
  queryErr := fun _ => none
  execErr := fun _ => none
  jsonMarshal := fun _ => some "\x7b\"foo\":\"bar\"\x7d"
  validMethod := fun _ => true
  urlParse := fun u => some u
  canonicalHeaderKey := fun k => k
  clientDo := fun _ _ =>
    Except.ok
      { StatusCode := 202
        Header := [("Header1", ["value1"]), ("Header2", ["value2"])]
        ContentLength := 123 }
  sqsDelete := fun _ => none
  sqsReceive := fun _ _ => Except.ok []
  jsonUnmarshal := fun body _ =>
    if body = "\"7\"" then Except.ok 7 else Except.error (Err.external "invalid UUID")
  insertReturning := fun _ => Except.ok 8
  jsonMarshalUUID := fun id => Except.ok ("\"" ++ toString id ++ "\"")
  sqsSend := fun _ => none

/-- The same collaborators with an HTTP client that fails. -/
def failingHttpEnv : Env :=
  { sampleEnv with clientDo := fun _ _ => Except.error (Err.external "request failed") }

/-- The task of `prepareTask`, freshly created. -/
def sampleTask : TaskWithResponseData where
  ID := 7
  Status := TaskStatus.New
  Method := "POST"
  URL := "https://example.com"
  Headers := some [("Content-Type", "application/json")]
  Body := some [("foo", "\"bar\"")]
  ResponseStatusCode := none
  ResponseHeaders := none
  ResponseContentLength := none

/-- The same task after a successful run. -/
def doneTask : TaskWithResponseData :=
  { sampleTask with
    Status := TaskStatus.Done
    ResponseStatusCode := some 202
    ResponseHeaders := some [("Header1", ["value1"]), ("Header2", ["value2"])]
    ResponseContentLength := some 123 }

/-- The request `makeRequest` builds for `sampleTask`. -/
def sampleRequest : Request where
  Method := "POST"
  URL := "https://example.com"
  Header := [("Content-Type", ["application/json"])]
  Body := some "\x7b\"foo\":\"bar\"\x7d"

/-- A table holding the fresh task. -/
def sampleWorld : World := { rows := [sampleTask], trace := [], logs := [] }

/-- A table holding the finished task. -/
def doneWorld : World := { rows := [doneTask], trace := [], logs := [] }

/-- A processor with a bare logger. -/
def sampleProcessor : processor := { logger := { fields := [] } }

/-- The queue service as `main` configures it: five minutes, three attempts. -/
def sampleService : Service where
  cfg :=
    { VisibilityTimeout := 300000000000
      MaxMessageAttempts := 3
      URL := "https://message-queue.api.cloud.yandex.net"
      KeyID := "key"
      SecretKey := "secret"
      Region := "ru-central1"
      Debug := false }

/-- A message for task `7` delivered for the `count`-th time. -/
def sampleMessage (count : String) : Message where
  MessageId := some "test"
  ReceiptHandle := some "handle"
  Body := some "\"7\""
  Attributes := [("ApproximateReceiveCount", some count)]

/-- A worker over the real service and processor. -/
def sampleWorker : Worker Service processor where
  queueURL := "sqs://task-queue"
  workers := 3
  receiver := sampleService
  processor := sampleProcessor
  logger := { fields := [] }

/-- The response of the sample HTTP server. -/
def sampleResponse : Response where
  StatusCode := 202
  Header := [("Header1", ["value1"]), ("Header2", ["value2"])]
  ContentLength := 123

/-- The sample collaborators with a database that refuses the statement issued as
fourth call of a run from an empty trace. -/
def lateWriteFailsEnv : Env :=
  { sampleEnv with
    execErr := fun clock => if clock = 3 then some (Err.external "update failed") else none }

/-- A failing HTTP client together with a database that refuses the statement
issued as fourth call. -/
def failingHttpAndWriteEnv : Env :=
  { failingHttpEnv with
    execErr := fun clock => if clock = 3 then some (Err.external "update failed") else none }

/-- The sample collaborators with the URL parser of the Go library on the one URL
it is asked about here: a URL without scheme is refused. -/
def strictURLEnv : Env :=
  { sampleEnv with urlParse := fun u => if u = "://example.com" then none else some u }

/-- The sample task with a URL that has no scheme. -/
def badURLTask : TaskWithResponseData :=
  { sampleTask with URL := "://example.com" }

/-- A table holding the task with the bad URL. -/
def badURLWorld : World := { rows := [badURLTask], trace := [], logs := [] }

/-- The sample collaborators with the canonicalisation of header names of the Go
library. -/
def canonicalEnv : Env :=
  { sampleEnv with canonicalHeaderKey := CanonicalMIMEHeaderKey }

/-- A task whose two header names differ only by case. -/
def collidingTask : Task where
  ID := 7
  Status := TaskStatus.New
  Method := "POST"
  URL := "https://example.com"
  Headers := some [("a", "1"), ("A", "2")]
  Body := none

/-- The request `makeRequest` builds for `collidingTask`. -/
def collidingRequest : Request where
  Method := "POST"
  URL := "https://example.com"
  Header := [("A", ["2"])]
  Body := none

/-- A task without method. -/
def noMethodTask : Task where
  ID := 7
  Status := TaskStatus.New
  Method := ""
  URL := "https://example.com"
  Headers := none
  Body := none

/-- The request `makeRequest` builds for `noMethodTask`. -/
def noMethodRequest : Request where
  Method := "GET"
  URL := "https://example.com"
  Header := []
  Body := none

/-- The queue service of `worker_test.go`: a visibility timeout of twenty minutes. -/
def twentyMinuteService : Service :=
  { cfg := { sampleService.cfg with VisibilityTimeout := 1200000000000 } }

/-- Whatever it answers, `GetTask` adds the load to the trace and nothing else. -/
theorem GetTask_world (env : Env) (w : World) (id : UUID) :
    (GetTask env w id).1 = w.emit (Event.getTask id) := by
  unfold GetTask
  cases env.queryErr w.trace.length with
  | some e => rfl
  | none =>
    cases w.rows.find? (fun row => row.ID == id) with
    | none => rfl
    | some t => rfl

/-- One call on a task stored as `Done`: the table is kept, the load is the only
call, and the result is success when the load succeeds. -/
theorem ProcessTask_done_step (env : Env) (r : processor) (w : World) (taskID : UUID)
    (task : TaskWithResponseData)
    (hfind : w.rows.find? (fun row => row.ID == taskID) = some task)
    (hdone : task.Status = TaskStatus.Done) :
    (processor.ProcessTask env r w taskID).1.rows = w.rows ∧
    (processor.ProcessTask env r w taskID).1.trace = w.trace ++ [Event.getTask taskID] ∧
    (env.queryErr w.trace.length = none →
      (processor.ProcessTask env r w taskID).2 = Outcome.ret none) := by
  unfold processor.ProcessTask GetTask
  cases hq : env.queryErr w.trace.length <;>
    simp [hfind, hdone, World.emit, World.Info]

/-- No `SET` clause touches the `id` column. -/
theorem SetClause_apply_ID (row : TaskWithResponseData) (c : SetClause) :
    (c.apply row).ID = row.ID := by
  cases c <;> rfl

/-- An `UPDATE` leaves the `id` of a row alone. -/
theorem foldl_apply_ID (cs : List SetClause) (row : TaskWithResponseData) :
    (cs.foldl SetClause.apply row).ID = row.ID := by
  induction cs generalizing row with
  | nil => rfl
  | cons c cs ih => simp only [List.foldl_cons]; rw [ih, SetClause_apply_ID]

/-- Reading a task back after an `UPDATE` on its identifier gives the row that was
there with the clauses applied. -/
theorem find_map_applyUpdate (id : UUID) (cs : List SetClause) (rows : List TaskWithResponseData) :
    (rows.map (applyUpdate id cs)).find? (fun row => row.ID == id) =
      (rows.find? (fun row => row.ID == id)).map (fun t => cs.foldl SetClause.apply t) := by
  induction rows with
  | nil => rfl
  | cons t rows ih =>
    by_cases h : t.ID = id
    · have hb : (t.ID == id) = true := by simp [h]
      simp [List.find?_cons, applyUpdate, h, foldl_apply_ID]
    · have hb : (t.ID == id) = false := by simp [h]
      simp only [List.map_cons, List.find?_cons, applyUpdate, if_neg h, hb, ih]

/-- The row `GetTask` selects has the identifier asked for. -/
theorem find_ID {rows : List TaskWithResponseData} {id : UUID} {task : TaskWithResponseData}
    (h : rows.find? (fun row => row.ID == id) = some task) : task.ID = id := by
  have := List.find?_some h
  simpa using this

/-- The request does not depend on the status of the task. -/
theorem buildRequest_status (env : Env) (t : Task) (s : TaskStatus) :
    buildRequest env { t with Status := s } = buildRequest env t := rfl

/-- The whole run on a task that is not `Done` when the load, both writes and the
outbound call succeed: the table, the four calls in order, the log and the result. -/
theorem ProcessTask_success_run (env : Env) (r : processor) (w : World) (taskID : UUID)
    (task : TaskWithResponseData) (req : Request) (resp : Response)
    (hfind : w.rows.find? (fun row => row.ID == taskID) = some task)
    (hnd : task.Status ≠ TaskStatus.Done)
    (hid : taskID ≠ uuidNil)
    (hq : env.queryErr w.trace.length = none)
    (hexec1 : env.execErr (w.trace.length + 1) = none)
    (hexec2 : env.execErr (w.trace.length + 3) = none)
    (hreq : buildRequest env task.toTask = some req)
    (hdo : env.clientDo (w.trace.length + 2) req = Except.ok resp) :
    processor.ProcessTask env r w taskID =
      ({ rows := (w.rows.map (applyUpdate taskID [SetClause.status TaskStatus.InProcess])).map
           (applyUpdate taskID (doneUpdate taskID resp).setUpdateFields)
         trace := w.trace ++
           [Event.getTask taskID, Event.updateTask (statusUpdate taskID TaskStatus.InProcess),
            Event.httpDo req, Event.updateTask (doneUpdate taskID resp)]
         logs := w.logs },
        Outcome.ret none) := by
  have hID := find_ID hfind
  subst hID
  simp [processor.ProcessTask, GetTask, hq, hfind, hnd, processor.processLoaded,
    processor.updateTask, UpdateTask, hid, UpdateTaskInput.setUpdateFields, World.emit,
    hexec1, processor.makeRequest, buildRequest_status, hreq, hdo, hexec2, statusUpdate,
    doneUpdate]

/-- The whole run on a task that is not `Done` when the load and both writes succeed
and the outbound call fails: the table, the four calls in order, the log and the
result. -/
theorem ProcessTask_failure_run (env : Env) (r : processor) (w : World) (taskID : UUID)
    (task : TaskWithResponseData) (req : Request) (e : Err)
    (hfind : w.rows.find? (fun row => row.ID == taskID) = some task)
    (hnd : task.Status ≠ TaskStatus.Done)
    (hid : taskID ≠ uuidNil)
    (hq : env.queryErr w.trace.length = none)
    (hexec1 : env.execErr (w.trace.length + 1) = none)
    (hexec2 : env.execErr (w.trace.length + 3) = none)
    (hreq : buildRequest env task.toTask = some req)
    (hdo : env.clientDo (w.trace.length + 2) req = Except.error e) :
    processor.ProcessTask env r w taskID =
      ({ rows := (w.rows.map (applyUpdate taskID [SetClause.status TaskStatus.InProcess])).map
           (applyUpdate taskID [SetClause.status TaskStatus.Error])
         trace := w.trace ++
           [Event.getTask taskID, Event.updateTask (statusUpdate taskID TaskStatus.InProcess),
            Event.httpDo req, Event.updateTask (statusUpdate taskID TaskStatus.Error)]
         logs := w.logs },
        Outcome.ret (some e)) := by
  have hID := find_ID hfind
  subst hID
  simp [processor.ProcessTask, GetTask, hq, hfind, hnd, processor.processLoaded,
    processor.updateTask, UpdateTask, hid, UpdateTaskInput.setUpdateFields, World.emit,
    hexec1, processor.makeRequest, buildRequest_status, hreq, hdo, hexec2, statusUpdate]

/-! ## Lemmas on the queue transport -/

/-- The attempt-limit branch of `DecodeMessage`: the delete is issued and its error,
or else the attempt-limit error, is returned; the output is not written. -/
theorem DecodeMessage_over_limit (env : Env) (svc : Service) (w : World)
    (queueURL : Option String) (message : Message) (output : UUID) (rc : String)
    (hattr : message.Attributes.lookup MessageSystemAttributeNameApproximateReceiveCount =
      some (some rc))
    (hdebug : svc.cfg.Debug = false)
    (hcnt : Atoi rc > svc.cfg.MaxMessageAttempts) :
    Service.DecodeMessage env svc w queueURL message output =
      (w.emit (Event.deleteMessage queueURL message.ReceiptHandle),
        Outcome.ret
          (some (match env.sqsDelete w.trace.length with
            | some e => e
            | none =>
              Err.new ("message has been received " ++ toString (Atoi rc) ++ " times. Deleted")),
            output)) := by
  unfold Service.DecodeMessage
  simp only [hattr, hdebug, Bool.not_false, if_true, hcnt, Service.DeleteMessage]
  cases env.sqsDelete w.trace.length <;> rfl

/-- Outside the attempt-limit branch `DecodeMessage` is the decoding of the body. -/
theorem DecodeMessage_within_limit (env : Env) (svc : Service) (w : World)
    (queueURL : Option String) (message : Message) (output : UUID)
    (hin : svc.cfg.Debug = true ∨
      message.Attributes.lookup MessageSystemAttributeNameApproximateReceiveCount = none ∨
      ∃ rc, message.Attributes.lookup MessageSystemAttributeNameApproximateReceiveCount =
          some (some rc) ∧ Atoi rc ≤ svc.cfg.MaxMessageAttempts) :
    Service.DecodeMessage env svc w queueURL message output =
      Service.decodeBody env svc w queueURL message output := by
  unfold Service.DecodeMessage
  rcases hin with h | h | ⟨rc, h, hle⟩
  · cases message.Attributes.lookup MessageSystemAttributeNameApproximateReceiveCount <;>
      simp [h]
  · simp [h]
  · have hnot : ¬ Atoi rc > svc.cfg.MaxMessageAttempts := not_lt.mpr hle
    cases hd : svc.cfg.Debug <;> simp [h, hnot]

/-- The decoding of the body does not read the attributes. -/
theorem decodeBody_attributes (env : Env) (svc : Service) (w : World)
    (queueURL : Option String) (message : Message) (output : UUID)
    (attrs : List (String × Option String)) :
    Service.decodeBody env svc w queueURL { message with Attributes := attrs } output =
      Service.decodeBody env svc w queueURL message output := rfl

/-! ## Task Processor: early returns -/

/-- C1. Idempotence after `Done`: when the stored task with the given identifier
has status `Done`, `ProcessTask` returns success, its only call is the load of the
task (no outbound request, no store write) and the table is left as it was; and any
number of repeated calls leaves the table unchanged, issues nothing but loads and,
the loads succeeding, returns success every time. -/
theorem ProcessTask_done_idempotent (env : Env) (r : processor) (w : World) (taskID : UUID)
    (task : TaskWithResponseData)
    (hfind : w.rows.find? (fun row => row.ID == taskID) = some task)
    (hdone : task.Status = TaskStatus.Done) :
    (env.queryErr w.trace.length = none →
      processor.ProcessTask env r w taskID =
        ({ rows := w.rows
           trace := w.trace ++ [Event.getTask taskID]
           logs := w.logs ++
            [{ level := Level.info
               fields := r.logger.fields ++ [Field.uuid "task_id" taskID]
               msg := "task already done" }] },
          Outcome.ret none)) ∧
    (∀ n : Nat,
      (processor.ProcessTaskN env r w taskID n).1.rows = w.rows ∧
      (processor.ProcessTaskN env r w taskID n).1.trace =
        w.trace ++ List.replicate n (Event.getTask taskID)) ∧
    ((∀ k, env.queryErr k = none) →
      ∀ n : Nat,
        (processor.ProcessTaskN env r w taskID n).2 = List.replicate n (Outcome.ret none)) := by
  refine ⟨?_, ?_, ?_⟩
  · intro hq
    unfold processor.ProcessTask GetTask
    simp [hq, hfind, hdone, World.emit, World.Info, Logger.With]
  · intro n
    induction n generalizing w with
    | zero => simp [processor.ProcessTaskN]
    | succ n ih =>
      obtain ⟨hrows, htrace, _⟩ := ProcessTask_done_step env r w taskID task hfind hdone
      have hfind1 :
          (processor.ProcessTask env r w taskID).1.rows.find? (fun row => row.ID == taskID) =
            some task := by rw [hrows]; exact hfind
      obtain ⟨ih1, ih2⟩ := ih (processor.ProcessTask env r w taskID).1 hfind1
      simp only [processor.ProcessTaskN]
      refine ⟨by rw [ih1, hrows], ?_⟩
      rw [ih2, htrace, List.replicate_succ, List.append_assoc]
      rfl
  · intro hq n
    induction n generalizing w with
    | zero => simp [processor.ProcessTaskN]
    | succ n ih =>
      obtain ⟨hrows, _, hres⟩ := ProcessTask_done_step env r w taskID task hfind hdone
      have hfind1 :
          (processor.ProcessTask env r w taskID).1.rows.find? (fun row => row.ID == taskID) =
            some task := by rw [hrows]; exact hfind
      simp only [processor.ProcessTaskN]
      rw [ih (processor.ProcessTask env r w taskID).1 hfind1, hres (hq _), List.replicate_succ]

/-- Witness of C1 on the finished sample task, three calls in a row. -/
theorem ProcessTask_done_idempotent_witness :
    (processor.ProcessTaskN sampleEnv sampleProcessor doneWorld 7 3).1.rows = [doneTask] ∧
    (processor.ProcessTaskN sampleEnv sampleProcessor doneWorld 7 3).2 =
      [Outcome.ret none, Outcome.ret none, Outcome.ret none] :=
  ⟨((ProcessTask_done_idempotent sampleEnv sampleProcessor doneWorld 7 doneTask rfl rfl).2.1 3).1,
   (ProcessTask_done_idempotent sampleEnv sampleProcessor doneWorld 7 doneTask rfl rfl).2.2
     (fun _ => rfl) 3⟩

/-- C2. A task identifier that the store does not hold (`GetTask` reports
not-found without error): `ProcessTask` returns success, leaves the table as it
was and issues no call but the load itself (no store write, no outbound request). -/
theorem ProcessTask_not_found (env : Env) (r : processor) (w : World) (taskID : UUID)
    (hget : (GetTask env w taskID).2 = Except.ok none) :
    processor.ProcessTask env r w taskID =
      ({ rows := w.rows
         trace := w.trace ++ [Event.getTask taskID]
         logs := w.logs ++
          [{ level := Level.info
             fields := r.logger.fields ++ [Field.uuid "task_id" taskID]
             msg := "task not found" }] },
        Outcome.ret none) := by
  have hw := GetTask_world env w taskID
  unfold processor.ProcessTask
  rcases hg : GetTask env w taskID with ⟨w1, res⟩
  rw [hg] at hget hw
  simp only at hget hw
  subst hget
  subst hw
  simp [World.emit, World.Info, Logger.With]

/-- Witness of C2: identifier `8` is not in the sample table. -/
theorem ProcessTask_not_found_witness :
    (processor.ProcessTask sampleEnv sampleProcessor sampleWorld 8).2 = Outcome.ret none ∧
    (processor.ProcessTask sampleEnv sampleProcessor sampleWorld 8).1.rows = [sampleTask] ∧
    (processor.ProcessTask sampleEnv sampleProcessor sampleWorld 8).1.trace = [Event.getTask 8] := by
  have h := ProcessTask_not_found sampleEnv sampleProcessor sampleWorld 8 rfl
  rw [h]
  exact ⟨rfl, rfl, rfl⟩

/-! ## Task Processor: outcomes of the outbound call -/

/-- C3. A stored task in status `New`, `InProcess` or `Error` (so `Error` does not
short-circuit), the load and the two store writes of the run succeeding (which
includes that the identifier is not `uuid.Nil`, refused by `UpdateTask`), and the
outbound call answering with a response: `ProcessTask` returns success and the task
read back is the stored one with status `Done` and exactly the status code, headers
and content length of the response (whatever the length, `-1` included); its id,
method, url, headers and body are those it had. -/
theorem ProcessTask_success (env : Env) (r : processor) (w : World) (taskID : UUID)
    (task : TaskWithResponseData) (req : Request) (resp : Response)
    (hfind : w.rows.find? (fun row => row.ID == taskID) = some task)
    (hstatus : task.Status = TaskStatus.New ∨ task.Status = TaskStatus.InProcess ∨
      task.Status = TaskStatus.Error)
    (hid : taskID ≠ uuidNil)
    (hq : env.queryErr w.trace.length = none)
    (hexec1 : env.execErr (w.trace.length + 1) = none)
    (hexec2 : env.execErr (w.trace.length + 3) = none)
    (hreq : buildRequest env task.toTask = some req)
    (hdo : env.clientDo (w.trace.length + 2) req = Except.ok resp) :
    (processor.ProcessTask env r w taskID).2 = Outcome.ret none ∧
    (processor.ProcessTask env r w taskID).1.rows.find? (fun row => row.ID == taskID) =
      some { task with
             Status := TaskStatus.Done
             ResponseStatusCode := some resp.StatusCode
             ResponseHeaders := some resp.Header
             ResponseContentLength := some resp.ContentLength } := by
  have hnd : task.Status ≠ TaskStatus.Done := by
    rcases hstatus with h | h | h <;> simp [h]
  rw [ProcessTask_success_run env r w taskID task req resp hfind hnd hid hq hexec1 hexec2 hreq hdo]
  refine ⟨rfl, ?_⟩
  simp only []
  rw [find_map_applyUpdate, find_map_applyUpdate, hfind]
  rfl

/-- Witness of C3: the run of `Test_processTask_ProcessTask_ok`, status 202, headers
`Header1: value1`, `Header2: value2`, content length 123. -/
theorem ProcessTask_success_witness :
    (processor.ProcessTask sampleEnv sampleProcessor sampleWorld 7).2 = Outcome.ret none ∧
    (processor.ProcessTask sampleEnv sampleProcessor sampleWorld 7).1.rows.find?
      (fun row => row.ID == 7) = some doneTask :=
  ProcessTask_success sampleEnv sampleProcessor sampleWorld 7 sampleTask sampleRequest
    { StatusCode := 202, Header := [("Header1", ["value1"]), ("Header2", ["value2"])],
      ContentLength := 123 }
    rfl (Or.inl rfl) (by decide) rfl rfl rfl rfl rfl

/-- C4. A stored task that is not `Done` and has no response fields, the load and
the two store writes of the run succeeding, and the outbound call failing with `e`:
`ProcessTask` returns exactly `e`, and the task read back is the stored one with
status `Error`, its status code, headers and content length still unset. -/
theorem ProcessTask_outbound_failure (env : Env) (r : processor) (w : World) (taskID : UUID)
    (task : TaskWithResponseData) (req : Request) (e : Err)
    (hfind : w.rows.find? (fun row => row.ID == taskID) = some task)
    (hstatus : task.Status ≠ TaskStatus.Done)
    (hnoresp : task.ResponseStatusCode = none ∧ task.ResponseHeaders = none ∧
      task.ResponseContentLength = none)
    (hid : taskID ≠ uuidNil)
    (hq : env.queryErr w.trace.length = none)
    (hexec1 : env.execErr (w.trace.length + 1) = none)
    (hexec2 : env.execErr (w.trace.length + 3) = none)
    (hreq : buildRequest env task.toTask = some req)
    (hdo : env.clientDo (w.trace.length + 2) req = Except.error e) :
    (processor.ProcessTask env r w taskID).2 = Outcome.ret (some e) ∧
    ∃ stored : TaskWithResponseData,
      (processor.ProcessTask env r w taskID).1.rows.find? (fun row => row.ID == taskID) =
        some stored ∧
      stored = { task with Status := TaskStatus.Error } ∧
      stored.Status = TaskStatus.Error ∧
      stored.ResponseStatusCode = none ∧ stored.ResponseHeaders = none ∧
      stored.ResponseContentLength = none := by
  rw [ProcessTask_failure_run env r w taskID task req e hfind hstatus hid hq hexec1 hexec2 hreq hdo]
  refine ⟨rfl, { task with Status := TaskStatus.Error }, ?_, rfl, rfl, hnoresp.1, hnoresp.2.1,
    hnoresp.2.2⟩
  simp only []
  rw [find_map_applyUpdate, find_map_applyUpdate, hfind]
  rfl

/-- Witness of C4: the run of `Test_processTask_ProcessTask_error`. -/
theorem ProcessTask_outbound_failure_witness :
    (processor.ProcessTask failingHttpEnv sampleProcessor sampleWorld 7).2 =
      Outcome.ret (some (Err.external "request failed")) ∧
    ∃ stored : TaskWithResponseData,
      (processor.ProcessTask failingHttpEnv sampleProcessor sampleWorld 7).1.rows.find?
        (fun row => row.ID == 7) = some stored ∧
      stored = { sampleTask with Status := TaskStatus.Error } ∧
      stored.Status = TaskStatus.Error ∧
      stored.ResponseStatusCode = none ∧ stored.ResponseHeaders = none ∧
      stored.ResponseContentLength = none :=
  ProcessTask_outbound_failure failingHttpEnv sampleProcessor sampleWorld 7 sampleTask
    sampleRequest (Err.external "request failed")
    rfl (by decide) ⟨rfl, rfl, rfl⟩ (by decide) rfl rfl rfl rfl rfl

/-! ## Dispatcher: one message -/

/-- C5. For every message and every receiver and processor behind the two
interfaces. `handleMessage` invokes `ProcessTask` exactly when `DecodeMessage`
returned success, and then on the identifier `DecodeMessage` left in `taskID`; it
calls `DeleteMessage` on the message exactly when `DecodeMessage` returned success
and `ProcessTask` (on the decoded identifier, in the world `DecodeMessage` left)
returned success; and it deletes no other message. The world it leaves is pinned in
every case: after a failed or panicking `DecodeMessage` it is the world of that call
(with the error line), so neither `ProcessTask` nor `DeleteMessage` has acted; after
`ProcessTask` returned an error or panicked it is the world `ProcessTask` left (with
the error line), so no delete has acted on it; after `ProcessTask` returned success
it is the world the one `DeleteMessage` call on the message left, with the line that
fits its result. -/
theorem handleMessage_calls {R P : Type} (recv : messageReceiver R) (proc : Processor P)
    (wk : Worker R P) (w : World) (sqsMsg : Message) :
    (∀ taskID : UUID,
      Call.ProcessTask taskID ∈ (Worker.handleMessage recv proc wk w sqsMsg).calls ↔
      ∃ messageId : String, sqsMsg.MessageId = some messageId ∧
        (recv.DecodeMessage wk.receiver
          (w.Info (wk.messageLogger messageId) "Message received for processing")
          (some wk.queueURL) sqsMsg uuidNil).2 = Outcome.ret (none, taskID)) ∧
    (Call.DeleteMessage sqsMsg ∈ (Worker.handleMessage recv proc wk w sqsMsg).calls ↔
      ∃ (messageId : String) (taskID : UUID), sqsMsg.MessageId = some messageId ∧
        (recv.DecodeMessage wk.receiver
          (w.Info (wk.messageLogger messageId) "Message received for processing")
          (some wk.queueURL) sqsMsg uuidNil).2 = Outcome.ret (none, taskID) ∧
        (proc.ProcessTask (proc.WithLogger wk.processor (wk.messageLogger messageId))
          (recv.DecodeMessage wk.receiver
            (w.Info (wk.messageLogger messageId) "Message received for processing")
            (some wk.queueURL) sqsMsg uuidNil).1 taskID).2 = Outcome.ret none) ∧
    (∀ m : Message,
      Call.DeleteMessage m ∈ (Worker.handleMessage recv proc wk w sqsMsg).calls → m = sqsMsg) ∧
    (sqsMsg.MessageId = none →
      (Worker.handleMessage recv proc wk w sqsMsg).world = w ∧
      (Worker.handleMessage recv proc wk w sqsMsg).out =
        Outcome.panic "nil pointer dereference") ∧
    (∀ (messageId : String) (w1 : World) (d : Outcome (Option Err × UUID)),
      sqsMsg.MessageId = some messageId →
      recv.DecodeMessage wk.receiver
        (w.Info (wk.messageLogger messageId) "Message received for processing")
        (some wk.queueURL) sqsMsg uuidNil = (w1, d) →
      (∀ p, d = Outcome.panic p →
        (Worker.handleMessage recv proc wk w sqsMsg).world = w1 ∧
        (Worker.handleMessage recv proc wk w sqsMsg).out = Outcome.panic p) ∧
      (∀ e id, d = Outcome.ret (some e, id) →
        (Worker.handleMessage recv proc wk w sqsMsg).world =
          w1.Error (wk.messageLogger messageId) "Error decoding the message" e ∧
        (Worker.handleMessage recv proc wk w sqsMsg).out = Outcome.ret ()) ∧
      (∀ (taskID : UUID) (w2 : World) (pr : Outcome (Option Err)),
        d = Outcome.ret (none, taskID) →
        proc.ProcessTask (proc.WithLogger wk.processor (wk.messageLogger messageId)) w1 taskID =
          (w2, pr) →
        (∀ p, pr = Outcome.panic p →
          (Worker.handleMessage recv proc wk w sqsMsg).world = w2 ∧
          (Worker.handleMessage recv proc wk w sqsMsg).out = Outcome.panic p) ∧
        (∀ e, pr = Outcome.ret (some e) →
          (Worker.handleMessage recv proc wk w sqsMsg).world =
            w2.Error (wk.messageLogger messageId) "Error processing the message" e ∧
          (Worker.handleMessage recv proc wk w sqsMsg).out = Outcome.ret ()) ∧
        (∀ (w3 : World) (x : Outcome (Option Err)), pr = Outcome.ret none →
          recv.DeleteMessage wk.receiver w2 (some wk.queueURL) sqsMsg = (w3, x) →
          (∀ p, x = Outcome.panic p →
            (Worker.handleMessage recv proc wk w sqsMsg).world = w3 ∧
            (Worker.handleMessage recv proc wk w sqsMsg).out = Outcome.panic p) ∧
          (∀ e, x = Outcome.ret (some e) →
            (Worker.handleMessage recv proc wk w sqsMsg).world =
              w3.Error (wk.messageLogger messageId) "Error deleting the message" e ∧
            (Worker.handleMessage recv proc wk w sqsMsg).out = Outcome.ret ()) ∧
          (x = Outcome.ret none →
            (Worker.handleMessage recv proc wk w sqsMsg).world =
              w3.Info ((wk.messageLogger messageId).With (Field.duration "Duration"))
                "Successfully processed the message" ∧
            (Worker.handleMessage recv proc wk w sqsMsg).out = Outcome.ret ())))) := by
  have hcalls :
      (∀ taskID : UUID,
        Call.ProcessTask taskID ∈ (Worker.handleMessage recv proc wk w sqsMsg).calls ↔
        ∃ messageId : String, sqsMsg.MessageId = some messageId ∧
          (recv.DecodeMessage wk.receiver
            (w.Info (wk.messageLogger messageId) "Message received for processing")
            (some wk.queueURL) sqsMsg uuidNil).2 = Outcome.ret (none, taskID)) ∧
      (Call.DeleteMessage sqsMsg ∈ (Worker.handleMessage recv proc wk w sqsMsg).calls ↔
        ∃ (messageId : String) (taskID : UUID), sqsMsg.MessageId = some messageId ∧
          (recv.DecodeMessage wk.receiver
            (w.Info (wk.messageLogger messageId) "Message received for processing")
            (some wk.queueURL) sqsMsg uuidNil).2 = Outcome.ret (none, taskID) ∧
          (proc.ProcessTask (proc.WithLogger wk.processor (wk.messageLogger messageId))
            (recv.DecodeMessage wk.receiver
              (w.Info (wk.messageLogger messageId) "Message received for processing")
              (some wk.queueURL) sqsMsg uuidNil).1 taskID).2 = Outcome.ret none) ∧
      (∀ m : Message,
        Call.DeleteMessage m ∈ (Worker.handleMessage recv proc wk w sqsMsg).calls → m = sqsMsg) := by
    unfold Worker.handleMessage
    cases hm : sqsMsg.MessageId with
    | none => simp
    | some messageId =>
      simp only []
      rcases hd : recv.DecodeMessage wk.receiver
          (w.Info (wk.messageLogger messageId) "Message received for processing")
          (some wk.queueURL) sqsMsg uuidNil with ⟨w1, dres⟩
      rcases dres with ⟨⟨_ | e, taskID⟩⟩ | p
      · simp only []
        rcases hp : proc.ProcessTask (proc.WithLogger wk.processor (wk.messageLogger messageId))
            w1 taskID with ⟨w2, pres⟩
        rcases pres with ⟨_ | e⟩ | p
        · simp only []
          rcases hdel : recv.DeleteMessage wk.receiver w2 (some wk.queueURL) sqsMsg with ⟨w3, xres⟩
          rcases xres with ⟨_ | e⟩ | p <;> simp [hd, hp] <;> exact fun _ => eq_comm
        · simp [hd, hp]
          exact fun _ => eq_comm
        · simp [hd, hp]
          exact fun _ => eq_comm
      · simp [hd]
      · simp [hd]
  refine ⟨hcalls.1, hcalls.2.1, hcalls.2.2, ?_, ?_⟩
  · intro hm
    simp [Worker.handleMessage, hm]
  · intro messageId w1 d hm hd
    refine ⟨?_, ?_, ?_⟩
    · intro p hp
      subst hp
      simp [Worker.handleMessage, hm, hd]
    · intro e id he
      subst he
      simp [Worker.handleMessage, hm, hd]
    · intro taskID w2 pr hdt hp
      subst hdt
      refine ⟨?_, ?_, ?_⟩
      · intro p hpp
        subst hpp
        simp [Worker.handleMessage, hm, hd, hp]
      · intro e hpe
        subst hpe
        simp [Worker.handleMessage, hm, hd, hp]
      · intro w3 x hpn hx
        subst hpn
        refine ⟨?_, ?_, ?_⟩
        · intro p hxp
          subst hxp
          simp [Worker.handleMessage, hm, hd, hp, hx]
        · intro e hxe
          subst hxe
          simp [Worker.handleMessage, hm, hd, hp, hx]
        · intro hxn
          subst hxn
          simp [Worker.handleMessage, hm, hd, hp, hx]

/-- Witness of C5: the sample delivery over the real transport. With a failing HTTP
client `ProcessTask` returns the error, the world is the one it left plus the error
line, and the trace holds no delete; with the answering client the trace ends with
the delete of the message. -/
theorem handleMessage_calls_witness :
    ((Worker.handleMessage (Service.asReceiver failingHttpEnv)
        (processor.asProcessor failingHttpEnv) sampleWorker sampleWorld (sampleMessage "1")).world =
      (processor.ProcessTask failingHttpEnv
        (sampleProcessor.WithLogger (sampleWorker.messageLogger "test"))
        (sampleWorld.Info (sampleWorker.messageLogger "test") "Message received for processing")
        7).1.Error (sampleWorker.messageLogger "test") "Error processing the message"
          (Err.external "request failed") ∧
     (Worker.handleMessage (Service.asReceiver failingHttpEnv)
        (processor.asProcessor failingHttpEnv) sampleWorker sampleWorld (sampleMessage "1")).out =
      Outcome.ret ()) ∧
    (Worker.handleMessage (Service.asReceiver failingHttpEnv)
        (processor.asProcessor failingHttpEnv) sampleWorker sampleWorld
        (sampleMessage "1")).world.trace =
      [Event.getTask 7, Event.updateTask (statusUpdate 7 TaskStatus.InProcess),
        Event.httpDo sampleRequest, Event.updateTask (statusUpdate 7 TaskStatus.Error)] ∧
    (Worker.handleMessage (Service.asReceiver sampleEnv)
        (processor.asProcessor sampleEnv) sampleWorker sampleWorld
        (sampleMessage "1")).world.trace =
      [Event.getTask 7, Event.updateTask (statusUpdate 7 TaskStatus.InProcess),
        Event.httpDo sampleRequest, Event.updateTask (doneUpdate 7 sampleResponse),
        Event.deleteMessage (some "sqs://task-queue") (some "handle")] :=
  ⟨(((handleMessage_calls (Service.asReceiver failingHttpEnv)
        (processor.asProcessor failingHttpEnv) sampleWorker sampleWorld (sampleMessage "1")).2.2.2.2
      "test" _ _ rfl rfl).2.2 7 _ _ rfl rfl).2.1 (Err.external "request failed") rfl,
   by decide, by decide⟩

/-! ## Queue Transport: poison messages -/

/-- C6. When the `ApproximateReceiveCount` attribute is present, the debug flag is
off and the count (`strconv.Atoi` of the attribute) is strictly greater than
`MaxMessageAttempts`, `DecodeMessage` issues the delete of the message, returns an
error (the attempt-limit error when the delete succeeds) and leaves the output as it
was. With the debug flag on, without the attribute, or with a count less than or
equal to the maximum, the attribute plays no part (the result is that on the message
without attributes), and a body that parses gives success with the parsed value and
no delete. -/
theorem DecodeMessage_attempt_limit (env : Env) (svc : Service) (w : World)
    (queueURL : Option String) (message : Message) (output : UUID) :
    (∀ rc : String,
      message.Attributes.lookup MessageSystemAttributeNameApproximateReceiveCount =
        some (some rc) →
      svc.cfg.Debug = false →
      Atoi rc > svc.cfg.MaxMessageAttempts →
      ∃ e : Err,
        Service.DecodeMessage env svc w queueURL message output =
          (w.emit (Event.deleteMessage queueURL message.ReceiptHandle),
            Outcome.ret (some e, output)) ∧
        (env.sqsDelete w.trace.length = none →
          e = Err.new
            ("message has been received " ++ toString (Atoi rc) ++ " times. Deleted"))) ∧
    ((svc.cfg.Debug = true ∨
        message.Attributes.lookup MessageSystemAttributeNameApproximateReceiveCount = none ∨
        ∃ rc, message.Attributes.lookup MessageSystemAttributeNameApproximateReceiveCount =
            some (some rc) ∧ Atoi rc ≤ svc.cfg.MaxMessageAttempts) →
      Service.DecodeMessage env svc w queueURL message output =
          Service.DecodeMessage env svc w queueURL { message with Attributes := [] } output ∧
      ∀ (body : String) (v : UUID),
        message.Body = some body →
        env.jsonUnmarshal body output = Except.ok v →
        Service.DecodeMessage env svc w queueURL message output = (w, Outcome.ret (none, v))) := by
  refine ⟨?_, ?_⟩
  · intro rc hattr hdebug hcnt
    refine ⟨_, DecodeMessage_over_limit env svc w queueURL message output rc hattr hdebug hcnt, ?_⟩
    intro hdel
    rw [hdel]
  · intro hin
    rw [DecodeMessage_within_limit env svc w queueURL message output hin]
    refine ⟨?_, ?_⟩
    · rw [DecodeMessage_within_limit env svc w queueURL { message with Attributes := [] } output
        (Or.inr (Or.inl rfl))]
      rfl
    · intro body v hbody hparse
      simp [Service.decodeBody, hbody, hparse]

/-- Witness of C6 with the default maximum 3: count 4 is evicted, count 3 decodes to
task `7` and nothing is deleted. -/
theorem DecodeMessage_attempt_limit_witness :
    (∃ e : Err,
      Service.DecodeMessage sampleEnv sampleService sampleWorld (some "sqs://task-queue")
          (sampleMessage "4") uuidNil =
        (sampleWorld.emit (Event.deleteMessage (some "sqs://task-queue") (some "handle")),
          Outcome.ret (some e, uuidNil)) ∧
      (sampleEnv.sqsDelete sampleWorld.trace.length = none →
        e = Err.new ("message has been received " ++ toString (Atoi "4") ++ " times. Deleted"))) ∧
    Service.DecodeMessage sampleEnv sampleService sampleWorld (some "sqs://task-queue")
        (sampleMessage "3") uuidNil = (sampleWorld, Outcome.ret (none, 7)) :=
  ⟨(DecodeMessage_attempt_limit sampleEnv sampleService sampleWorld (some "sqs://task-queue")
      (sampleMessage "4") uuidNil).1 "4" rfl rfl (by decide),
   ((DecodeMessage_attempt_limit sampleEnv sampleService sampleWorld (some "sqs://task-queue")
      (sampleMessage "3") uuidNil).2 (Or.inr (Or.inr ⟨"3", rfl, by decide⟩))).2 "\"7\"" 7 rfl rfl⟩

/-- C7. A message within the attempt limit (debug flag on, no count attribute, or a
count not above the maximum) whose body `json.Unmarshal` rejects: `DecodeMessage`
issues the delete of the message and returns a non-nil error, the error of the
delete when the delete fails and the decode error when it succeeds; the output is
not written. -/
theorem DecodeMessage_malformed_body (env : Env) (svc : Service) (w : World)
    (queueURL : Option String) (message : Message) (output : UUID) (body : String)
    (parseErr : Err)
    (hin : svc.cfg.Debug = true ∨
      message.Attributes.lookup MessageSystemAttributeNameApproximateReceiveCount = none ∨
      ∃ rc, message.Attributes.lookup MessageSystemAttributeNameApproximateReceiveCount =
          some (some rc) ∧ Atoi rc ≤ svc.cfg.MaxMessageAttempts)
    (hbody : message.Body = some body)
    (hparse : env.jsonUnmarshal body output = Except.error parseErr) :
    ∃ e : Err,
      Service.DecodeMessage env svc w queueURL message output =
        (w.emit (Event.deleteMessage queueURL message.ReceiptHandle),
          Outcome.ret (some e, output)) ∧
      (∀ deleteErr, env.sqsDelete w.trace.length = some deleteErr → e = deleteErr) ∧
      (env.sqsDelete w.trace.length = none → e = Err.wrapNil "unable to decode the message") := by
  rw [DecodeMessage_within_limit env svc w queueURL message output hin]
  cases hdel : env.sqsDelete w.trace.length with
  | none =>
    refine ⟨Err.wrapNil "unable to decode the message", ?_, ?_, fun _ => rfl⟩
    · simp [Service.decodeBody, hbody, hparse, Service.DeleteMessage, hdel]
    · intro d hd; cases hd
  | some d =>
    refine ⟨d, ?_, ?_, ?_⟩
    · simp [Service.decodeBody, hbody, hparse, Service.DeleteMessage, hdel]
    · intro d2 hd; cases hd; rfl
    · intro hd; cases hd

/-- Witness of C7: first delivery of a message whose body is not JSON. -/
theorem DecodeMessage_malformed_body_witness :
    ∃ e : Err,
      Service.DecodeMessage sampleEnv sampleService sampleWorld (some "sqs://task-queue")
          { sampleMessage "1" with Body := some "not json" } uuidNil =
        (sampleWorld.emit (Event.deleteMessage (some "sqs://task-queue") (some "handle")),
          Outcome.ret (some e, uuidNil)) ∧
      (∀ deleteErr, sampleEnv.sqsDelete sampleWorld.trace.length = some deleteErr →
        e = deleteErr) ∧
      (sampleEnv.sqsDelete sampleWorld.trace.length = none →
        e = Err.wrapNil "unable to decode the message") :=
  DecodeMessage_malformed_body sampleEnv sampleService sampleWorld (some "sqs://task-queue")
    { sampleMessage "1" with Body := some "not json" } uuidNil "not json"
    (Err.external "invalid UUID") (Or.inr (Or.inr ⟨"1", rfl, by decide⟩)) rfl rfl

/-! ## Dispatcher over the real transport -/

/-- C8. A delivered message (its `MessageId` is set) whose receive count exceeds the
configured maximum, debug off, handled by a pool member over the real
`DecodeMessage` and any processor: the only collaborator method invoked is
`DecodeMessage` (never `ProcessTask`, nor the worker's own `DeleteMessage`), the only
call issued is the SQS delete of the message (no read or write of the task store),
the `tasks` table is exactly as it was, whatever the status of the task, and
`handleMessage` returns. -/
theorem handleMessage_over_limit {P : Type} (env : Env) (proc : Processor P)
    (wk : Worker Service P) (w : World) (sqsMsg : Message) (messageId rc : String)
    (hmid : sqsMsg.MessageId = some messageId)
    (hattr : sqsMsg.Attributes.lookup MessageSystemAttributeNameApproximateReceiveCount =
      some (some rc))
    (hdebug : wk.receiver.cfg.Debug = false)
    (hcnt : Atoi rc > wk.receiver.cfg.MaxMessageAttempts) :
    (Worker.handleMessage (Service.asReceiver env) proc wk w sqsMsg).calls =
      [Call.DecodeMessage sqsMsg] ∧
    (Worker.handleMessage (Service.asReceiver env) proc wk w sqsMsg).world.trace =
      w.trace ++ [Event.deleteMessage (some wk.queueURL) sqsMsg.ReceiptHandle] ∧
    (Worker.handleMessage (Service.asReceiver env) proc wk w sqsMsg).world.rows = w.rows ∧
    (Worker.handleMessage (Service.asReceiver env) proc wk w sqsMsg).out = Outcome.ret () := by
  have hdec := DecodeMessage_over_limit env wk.receiver
    (w.Info (wk.messageLogger messageId) "Message received for processing")
    (some wk.queueURL) sqsMsg uuidNil rc hattr hdebug hcnt
  unfold Worker.handleMessage
  simp only [hmid, Service.asReceiver, hdec]
  simp [World.emit, World.Info, World.Error]

/-- Witness of C8: the fourth delivery of the message of task `7`, maximum 3. -/
theorem handleMessage_over_limit_witness :
    (Worker.handleMessage (Service.asReceiver sampleEnv) (processor.asProcessor sampleEnv)
      sampleWorker sampleWorld (sampleMessage "4")).calls =
      [Call.DecodeMessage (sampleMessage "4")] ∧
    (Worker.handleMessage (Service.asReceiver sampleEnv) (processor.asProcessor sampleEnv)
      sampleWorker sampleWorld (sampleMessage "4")).world.trace =
      sampleWorld.trace ++ [Event.deleteMessage (some "sqs://task-queue") (some "handle")] ∧
    (Worker.handleMessage (Service.asReceiver sampleEnv) (processor.asProcessor sampleEnv)
      sampleWorker sampleWorld (sampleMessage "4")).world.rows = sampleWorld.rows ∧
    (Worker.handleMessage (Service.asReceiver sampleEnv) (processor.asProcessor sampleEnv)
      sampleWorker sampleWorld (sampleMessage "4")).out = Outcome.ret () :=
  handleMessage_over_limit sampleEnv (processor.asProcessor sampleEnv) sampleWorker sampleWorld
    (sampleMessage "4") "test" "4" rfl rfl rfl (by decide)

/-! ## Dispatcher: construction -/

/-- C9. `NewWorker` returns an error whenever the worker count is greater than 10
or one of queue URL, receiver, processor, logger is absent; in particular with a
count of 11; with a count of 10 and all four present it succeeds and the worker
holds exactly the given queue URL, count, receiver, processor and logger. -/
theorem NewWorker_validation {R P : Type} (queueURL : Option String) (workers : Int)
    (receiver : Option R) (processor : Option P) (logger : Option Logger) :
    ((workers > 10 ∨ queueURL = none ∨ receiver = none ∨ processor = none ∨ logger = none) →
      ∃ e : Err, NewWorker queueURL workers receiver processor logger = Except.error e) ∧
    (∃ e : Err,
      NewWorker queueURL 11 receiver processor logger = Except.error e) ∧
    (∀ (q : String) (r : R) (p : P) (l : Logger),
      NewWorker (some q) 10 (some r) (some p) (some l) =
        Except.ok { queueURL := q, workers := 10, receiver := r, processor := p, logger := l }) := by
  refine ⟨?_, ?_, ?_⟩
  · intro h
    unfold NewWorker
    by_cases hw : workers > 10
    · exact ⟨_, if_pos hw⟩
    · rw [if_neg hw]
      cases queueURL with
      | none => exact ⟨_, rfl⟩
      | some q =>
        cases receiver with
        | none => exact ⟨_, rfl⟩
        | some r =>
          cases processor with
          | none => exact ⟨_, rfl⟩
          | some p =>
            cases logger with
            | none => exact ⟨_, rfl⟩
            | some l => simp [hw] at h
  · exact ⟨_, if_pos (by decide)⟩
  · intro q r p l
    rfl

/-- Witness of C9: three workers, no receiver. -/
theorem NewWorker_validation_witness :
    ∃ e : Err,
      NewWorker (some "sqs://task-queue") 3 (none : Option Service) (some sampleProcessor)
        (some { fields := [] }) = Except.error e :=
  (NewWorker_validation (some "sqs://task-queue") 3 (none : Option Service)
    (some sampleProcessor) (some { fields := [] })).1 (Or.inr (Or.inr (Or.inl rfl)))

/-- Counterexample to C10: with a worker count of zero and queue URL, receiver,
processor and logger present, `NewWorker` does not reject; it returns a worker with
no pool member. -/
theorem NewWorker_accepts_zero_workers :
    NewWorker (some "sqs://task-queue") 0 (some sampleService) (some sampleProcessor)
        (some { fields := [] }) =
      Except.ok { queueURL := "sqs://task-queue", workers := 0, receiver := sampleService,
                  processor := sampleProcessor, logger := { fields := [] } } ∧
    ¬ ∃ e : Err,
      NewWorker (some "sqs://task-queue") 0 (some sampleService) (some sampleProcessor)
        (some { fields := [] }) = Except.error e := by
  refine ⟨rfl, ?_⟩
  rintro ⟨e, he⟩
  cases he

/-- C10, amended. `NewWorker` has no lower bound on the worker count. For every
count below 1, with queue URL, receiver, processor and logger present, it succeeds
and the worker holds that count. The only check on the count is the upper bound of
10: with the four present it succeeds, holding the count, exactly when the count is
at most 10 and returns an error exactly when the count is above 10; and whichever of
the four are present, for a count of at most 10 the result is the one for the count
10 with the count put in its place. -/
theorem NewWorker_no_lower_bound {R P : Type} (workers : Int) (q : String) (r : R) (p : P)
    (l : Logger) :
    (workers < 1 →
      NewWorker (some q) workers (some r) (some p) (some l) =
        Except.ok { queueURL := q, workers := workers, receiver := r, processor := p,
                    logger := l }) ∧
    (NewWorker (some q) workers (some r) (some p) (some l) =
        Except.ok { queueURL := q, workers := workers, receiver := r, processor := p,
                    logger := l } ↔ workers ≤ 10) ∧
    ((∃ e : Err, NewWorker (some q) workers (some r) (some p) (some l) = Except.error e) ↔
      10 < workers) ∧
    (∀ (queueURL : Option String) (receiver : Option R) (processor : Option P)
        (logger : Option Logger), workers ≤ 10 →
      NewWorker queueURL workers receiver processor logger =
        (NewWorker queueURL 10 receiver processor logger).map
          (fun wk => { wk with workers := workers })) := by
  refine ⟨?_, ?_, ?_, ?_⟩
  · intro hlow
    have hw : ¬ workers > 10 := by omega
    unfold NewWorker
    rw [if_neg hw]
  · by_cases hw : workers > 10
    · simp [NewWorker, hw]
    · simp only [NewWorker, if_neg hw, true_iff]
      omega
  · by_cases hw : workers > 10
    · simp [NewWorker, hw]
    · simp only [NewWorker, if_neg hw]
      constructor
      · rintro ⟨e, he⟩
        cases he
      · intro h
        omega
  · intro queueURL receiver processor logger hle
    have hw : ¬ workers > 10 := by omega
    unfold NewWorker
    rw [if_neg hw, if_neg (by decide)]
    cases queueURL with
    | none => rfl
    | some q1 =>
      cases receiver with
      | none => rfl
      | some r1 =>
        cases processor with
        | none => rfl
        | some p1 =>
          cases logger with
          | none => rfl
          | some l1 => rfl

/-- Witness of the amended C10: a count of minus two with the four present, and a
count of five without receiver. -/
theorem NewWorker_no_lower_bound_witness :
    NewWorker (some "sqs://task-queue") (-2) (some sampleService) (some sampleProcessor)
        (some { fields := [] }) =
      Except.ok { queueURL := "sqs://task-queue", workers := -2, receiver := sampleService,
                  processor := sampleProcessor, logger := { fields := [] } } ∧
    NewWorker (some "sqs://task-queue") 5 (none : Option Service) (some sampleProcessor)
        (some { fields := [] }) =
      (NewWorker (some "sqs://task-queue") 10 (none : Option Service) (some sampleProcessor)
        (some { fields := [] })).map (fun wk => { wk with workers := 5 }) :=
  ⟨(NewWorker_no_lower_bound (-2) "sqs://task-queue" sampleService sampleProcessor
      { fields := [] }).1 (by decide),
   (NewWorker_no_lower_bound 5 "sqs://task-queue" sampleService sampleProcessor
      { fields := [] }).2.2.2 (some "sqs://task-queue") none (some sampleProcessor)
      (some { fields := [] }) (by decide)⟩

/-! ## Lemmas on the task store -/

/-- A row with a new identifier, added at the end of the table, is the one `GetTask`
selects for that identifier. -/
theorem find_append_fresh (rows : List TaskWithResponseData) (row : TaskWithResponseData)
    (id : UUID) (hfresh : ∀ r ∈ rows, r.ID ≠ id) (hrow : row.ID = id) :
    (rows ++ [row]).find? (fun r => r.ID == id) = some row := by
  induction rows with
  | nil => simp [List.find?_cons, hrow]
  | cons t rows ih =>
    have ht : (t.ID == id) = false := by
      have := hfresh t (List.mem_cons_self _ _)
      simp [this]
    simp only [List.cons_append, List.find?_cons, ht]
    exact ih (fun r hr => hfresh r (List.mem_cons_of_mem _ hr))

/-- The row an `INSERT` of `CreateTask` adds: the input with status `New`, the
response columns NULL. -/
theorem insertedRow_eq (id : UUID) (i : CreateTaskInput) :
    insertedRow id i.setInsertValues =
      { ID := id, Status := TaskStatus.New, Method := i.Method, URL := i.URL,
        Headers := i.Headers, Body := i.Body, ResponseStatusCode := none,
        ResponseHeaders := none, ResponseContentLength := none } := by
  rcases i with ⟨m, u, h, b⟩
  cases h <;> cases b <;> rfl

/-- An `UPDATE` on another identifier leaves the row as it is. -/
theorem applyUpdate_of_ne (id : UUID) (cs : List SetClause) (row : TaskWithResponseData)
    (h : row.ID ≠ id) : applyUpdate id cs row = row := by
  simp [applyUpdate, h]

/-- An `UPDATE` keeps the identifiers of the table. -/
theorem map_applyUpdate_ids (id : UUID) (cs : List SetClause)
    (rows : List TaskWithResponseData) :
    (rows.map (applyUpdate id cs)).map (fun row => row.ID) = rows.map (fun row => row.ID) := by
  rw [List.map_map]
  apply List.map_congr_left
  intro row _
  simp only [Function.comp, applyUpdate]
  split
  · exact foldl_apply_ID cs row
  · rfl

/-- With pairwise distinct identifiers, a row of the table is the one `GetTask`
selects for its identifier. -/
theorem find_eq_of_nodup (rows : List TaskWithResponseData)
    (hnd : (rows.map (fun row => row.ID)).Nodup) (row : TaskWithResponseData)
    (hmem : row ∈ rows) :
    rows.find? (fun x => x.ID == row.ID) = some row := by
  induction rows with
  | nil => cases hmem
  | cons t rows ih =>
    simp only [List.map_cons, List.nodup_cons] at hnd
    rcases List.mem_cons.mp hmem with rfl | hin
    · simp [List.find?_cons]
    · have hne : t.ID ≠ row.ID := by
        intro heq
        apply hnd.1
        rw [heq]
        exact List.mem_map_of_mem (fun row => row.ID) hin
      have hb : (t.ID == row.ID) = false := by simp [hne]
      simp only [List.find?_cons, hb]
      exact ih hnd.2 hin

/-! ## Lemmas on the runs of the processor -/

/-- Every run of `ProcessTask`: either its only call is the load and the table is as
it was, or the task was loaded and is not `Done`, and the calls after the load are
the `InProcess` update, at most one outbound request and one last update, of status
`Error` or of the response with status `Done`; each of the two updates is applied to
the table or not. -/
theorem ProcessTask_shape (env : Env) (r : processor) (w : World) (taskID : UUID) :
    ((processor.ProcessTask env r w taskID).1.rows = w.rows ∧
      (processor.ProcessTask env r w taskID).1.trace = w.trace ++ [Event.getTask taskID]) ∨
    ∃ (task : TaskWithResponseData) (mid : List Event) (last : UpdateTaskInput)
      (rows1 : List TaskWithResponseData),
      w.rows.find? (fun row => row.ID == taskID) = some task ∧
      task.Status ≠ TaskStatus.Done ∧
      (processor.ProcessTask env r w taskID).1.trace =
        w.trace ++ ([Event.getTask taskID,
          Event.updateTask (statusUpdate taskID TaskStatus.InProcess)] ++ mid ++
          [Event.updateTask last]) ∧
      (mid = [] ∨ ∃ req, mid = [Event.httpDo req]) ∧
      (last = statusUpdate taskID TaskStatus.Error ∨ ∃ resp, last = doneUpdate taskID resp) ∧
      (rows1 = w.rows ∨
        rows1 = w.rows.map (applyUpdate taskID [SetClause.status TaskStatus.InProcess])) ∧
      ((processor.ProcessTask env r w taskID).1.rows = rows1 ∨
        (processor.ProcessTask env r w taskID).1.rows =
          rows1.map (applyUpdate taskID last.setUpdateFields)) := by
  cases hq : env.queryErr w.trace.length with
  | some e =>
    left
    simp [processor.ProcessTask, GetTask, hq, World.emit]
  | none =>
    cases hfind : w.rows.find? (fun row => row.ID == taskID) with
    | none =>
      left
      simp [processor.ProcessTask, GetTask, hq, hfind, World.emit, World.Info]
    | some task =>
      by_cases hd : task.Status = TaskStatus.Done
      · left
        simp [processor.ProcessTask, GetTask, hq, hfind, hd, World.emit, World.Info]
      · have hID : task.ID = taskID := find_ID hfind
        subst hID
        by_cases hid : task.ID = uuidNil
        · left
          rw [hid] at hfind
          simp [processor.ProcessTask, GetTask, hq, hfind, hd, processor.processLoaded,
            processor.updateTask, UpdateTask, hid, UpdateTaskInput.setUpdateFields, World.emit,
            World.Error, World.Info, processor.makeRequest, buildRequest_status, statusUpdate,
            doneUpdate]
        · right
          cases he1 : env.execErr (w.trace.length + 1) with
          | some e1 =>
            cases he2 : env.execErr (w.trace.length + 2) with
            | some e2 =>
              refine ⟨task, [], statusUpdate task.ID TaskStatus.Error, w.rows,
                rfl, hd, ?_, Or.inl rfl, Or.inl rfl, Or.inl rfl, ?_⟩ <;>
              simp [processor.ProcessTask, GetTask, hq, hfind, hd, processor.processLoaded,
                processor.updateTask, UpdateTask, hid, UpdateTaskInput.setUpdateFields,
                World.emit, World.Error, World.Info, processor.makeRequest,
                buildRequest_status, statusUpdate, doneUpdate, he1, he2]
            | none =>
              refine ⟨task, [], statusUpdate task.ID TaskStatus.Error, w.rows,
                rfl, hd, ?_, Or.inl rfl, Or.inl rfl, Or.inl rfl, ?_⟩ <;>
              simp [processor.ProcessTask, GetTask, hq, hfind, hd, processor.processLoaded,
                processor.updateTask, UpdateTask, hid, UpdateTaskInput.setUpdateFields,
                World.emit, World.Error, World.Info, processor.makeRequest,
                buildRequest_status, statusUpdate, doneUpdate, he1, he2]
          | none =>
            cases hreq : buildRequest env task.toTask with
            | none =>
              cases he2 : env.execErr (w.trace.length + 2) with
              | some e2 =>
                refine ⟨task, [], statusUpdate task.ID TaskStatus.Error,
                  (w.rows.map (applyUpdate task.ID [SetClause.status TaskStatus.InProcess])),
                  rfl, hd, ?_, Or.inl rfl, Or.inl rfl, Or.inr rfl, ?_⟩ <;>
              simp [processor.ProcessTask, GetTask, hq, hfind, hd, processor.processLoaded,
                processor.updateTask, UpdateTask, hid, UpdateTaskInput.setUpdateFields,
                World.emit, World.Error, World.Info, processor.makeRequest,
                buildRequest_status, statusUpdate, doneUpdate, he1, he2, hreq]
              | none =>
                refine ⟨task, [], statusUpdate task.ID TaskStatus.Error,
                  (w.rows.map (applyUpdate task.ID [SetClause.status TaskStatus.InProcess])),
                  rfl, hd, ?_, Or.inl rfl, Or.inl rfl, Or.inr rfl, ?_⟩ <;>
              simp [processor.ProcessTask, GetTask, hq, hfind, hd, processor.processLoaded,
                processor.updateTask, UpdateTask, hid, UpdateTaskInput.setUpdateFields,
                World.emit, World.Error, World.Info, processor.makeRequest,
                buildRequest_status, statusUpdate, doneUpdate, he1, he2, hreq]
            | some req =>
              cases hdo : env.clientDo (w.trace.length + 2) req with
              | error e =>
                cases he2 : env.execErr (w.trace.length + 3) with
                | some e2 =>
                  refine ⟨task, [Event.httpDo req], statusUpdate task.ID TaskStatus.Error,
                    (w.rows.map (applyUpdate task.ID [SetClause.status TaskStatus.InProcess])),
                    rfl, hd, ?_, Or.inr ⟨req, rfl⟩, Or.inl rfl, Or.inr rfl, ?_⟩ <;>
              simp [processor.ProcessTask, GetTask, hq, hfind, hd, processor.processLoaded,
                processor.updateTask, UpdateTask, hid, UpdateTaskInput.setUpdateFields,
                World.emit, World.Error, World.Info, processor.makeRequest,
                buildRequest_status, statusUpdate, doneUpdate, he1, he2, hreq, hdo]
                | none =>
                  refine ⟨task, [Event.httpDo req], statusUpdate task.ID TaskStatus.Error,
                    (w.rows.map (applyUpdate task.ID [SetClause.status TaskStatus.InProcess])),
                    rfl, hd, ?_, Or.inr ⟨req, rfl⟩, Or.inl rfl, Or.inr rfl, ?_⟩ <;>
              simp [processor.ProcessTask, GetTask, hq, hfind, hd, processor.processLoaded,
                processor.updateTask, UpdateTask, hid, UpdateTaskInput.setUpdateFields,
                World.emit, World.Error, World.Info, processor.makeRequest,
                buildRequest_status, statusUpdate, doneUpdate, he1, he2, hreq, hdo]
              | ok resp =>
                cases he2 : env.execErr (w.trace.length + 3) with
                | some e2 =>
                  refine ⟨task, [Event.httpDo req], doneUpdate task.ID resp,
                    (w.rows.map (applyUpdate task.ID [SetClause.status TaskStatus.InProcess])),
                    rfl, hd, ?_, Or.inr ⟨req, rfl⟩, Or.inr ⟨resp, rfl⟩, Or.inr rfl, ?_⟩ <;>
              simp [processor.ProcessTask, GetTask, hq, hfind, hd, processor.processLoaded,
                processor.updateTask, UpdateTask, hid, UpdateTaskInput.setUpdateFields,
                World.emit, World.Error, World.Info, processor.makeRequest,
                buildRequest_status, statusUpdate, doneUpdate, he1, he2, hreq, hdo]
                | none =>
                  refine ⟨task, [Event.httpDo req], doneUpdate task.ID resp,
                    (w.rows.map (applyUpdate task.ID [SetClause.status TaskStatus.InProcess])),
                    rfl, hd, ?_, Or.inr ⟨req, rfl⟩, Or.inr ⟨resp, rfl⟩, Or.inr rfl, ?_⟩ <;>
              simp [processor.ProcessTask, GetTask, hq, hfind, hd, processor.processLoaded,
                processor.updateTask, UpdateTask, hid, UpdateTaskInput.setUpdateFields,
                World.emit, World.Error, World.Info, processor.makeRequest,
                buildRequest_status, statusUpdate, doneUpdate, he1, he2, hreq, hdo]

/-- A status that is not `Done`, written to a row that is not `Done`, keeps the
response fields unset. -/
theorem responseSetIffDone_status (id : UUID) (s : TaskStatus) (row : TaskWithResponseData)
    (hs : s ≠ TaskStatus.Done) (hrow : responseSetIffDone row)
    (hnd : row.ID = id → row.Status ≠ TaskStatus.Done) :
    responseSetIffDone (applyUpdate id [SetClause.status s] row) ∧
    ((applyUpdate id [SetClause.status s] row).ID = id →
      (applyUpdate id [SetClause.status s] row).Status ≠ TaskStatus.Done) := by
  by_cases h : row.ID = id
  · have h1 := hnd h
    have hc : row.ResponseStatusCode = none := by
      by_contra hc
      exact h1 (hrow.1.mp hc)
    have hl : row.ResponseContentLength = none := by
      by_contra hl
      exact h1 (hrow.2.mp hl)
    simp [applyUpdate, h, SetClause.apply, responseSetIffDone, hc, hl, hs]
  · rw [applyUpdate_of_ne id _ row h]
    exact ⟨hrow, fun h2 => absurd h2 h⟩

/-- The update to `Done` sets the status code and the content length. -/
theorem responseSetIffDone_done (id : UUID) (resp : Response) (row : TaskWithResponseData)
    (hrow : responseSetIffDone row) :
    responseSetIffDone (applyUpdate id (doneUpdate id resp).setUpdateFields row) := by
  by_cases h : row.ID = id
  · simp [applyUpdate, h, SetClause.apply, responseSetIffDone, doneUpdate,
      UpdateTaskInput.setUpdateFields]
  · rw [applyUpdate_of_ne id _ row h]
    exact hrow

/-- One invocation keeps the invariant and the distinct identifiers, and leaves every
`Done` row in the table as it is. -/
theorem ProcessTask_keeps_invariant (env : Env) (r : processor) (w : World) (taskID : UUID)
    (hinv : ∀ row ∈ w.rows, responseSetIffDone row)
    (hkey : (w.rows.map (fun row => row.ID)).Nodup) :
    (∀ row ∈ (processor.ProcessTask env r w taskID).1.rows, responseSetIffDone row) ∧
    ((processor.ProcessTask env r w taskID).1.rows.map (fun row => row.ID)).Nodup ∧
    (∀ row ∈ w.rows, row.Status = TaskStatus.Done →
      row ∈ (processor.ProcessTask env r w taskID).1.rows) := by
  rcases ProcessTask_shape env r w taskID with ⟨hrows, _⟩ |
    ⟨task, mid, last, rows1, hfind, hnd, _, _, hlast, hrows1, hrows⟩
  · rw [hrows]
    exact ⟨hinv, hkey, fun row h _ => h⟩
  · -- the rows of the task are not `Done`
    have hQ : ∀ row ∈ w.rows, responseSetIffDone row ∧
        (row.ID = taskID → row.Status ≠ TaskStatus.Done) := by
      intro row hmem
      refine ⟨hinv row hmem, fun hid => ?_⟩
      have h1 := find_eq_of_nodup w.rows hkey row hmem
      rw [hid, hfind] at h1
      cases h1
      exact hnd
    have hQ1 : ∀ row ∈ rows1, responseSetIffDone row ∧
        (row.ID = taskID → row.Status ≠ TaskStatus.Done) := by
      rcases hrows1 with rfl | rfl
      · exact hQ
      · intro row hmem
        obtain ⟨row0, hmem0, rfl⟩ := List.mem_map.mp hmem
        exact responseSetIffDone_status taskID TaskStatus.InProcess row0 (by decide)
          (hQ row0 hmem0).1 (hQ row0 hmem0).2
    have hkey1 : (rows1.map (fun row => row.ID)).Nodup := by
      rcases hrows1 with rfl | rfl
      · exact hkey
      · rw [map_applyUpdate_ids]; exact hkey
    have hdone1 : ∀ row ∈ w.rows, row.Status = TaskStatus.Done → row ∈ rows1 := by
      intro row hmem hd
      rcases hrows1 with rfl | rfl
      · exact hmem
      · refine List.mem_map.mpr ⟨row, hmem, applyUpdate_of_ne _ _ _ ?_⟩
        intro hid
        exact (hQ row hmem).2 hid hd
    rcases hrows with hrows | hrows
    · rw [hrows]
      exact ⟨fun row h => (hQ1 row h).1, hkey1, hdone1⟩
    · rw [hrows]
      refine ⟨?_, ?_, ?_⟩
      · intro row hmem
        obtain ⟨row0, hmem0, rfl⟩ := List.mem_map.mp hmem
        rcases hlast with rfl | ⟨resp, rfl⟩
        · exact (responseSetIffDone_status taskID TaskStatus.Error row0 (by decide)
            (hQ1 row0 hmem0).1 (hQ1 row0 hmem0).2).1
        · exact responseSetIffDone_done taskID resp row0 (hQ1 row0 hmem0).1
      · rw [map_applyUpdate_ids]; exact hkey1
      · intro row hmem hd
        refine List.mem_map.mpr ⟨row, hdone1 row hmem hd, applyUpdate_of_ne _ _ _ ?_⟩
        intro hid
        exact (hQ row hmem).2 hid hd

/-- Along a sequence of invocations the invariant and the distinct identifiers are
kept and every `Done` row stays in the table as it is. -/
theorem Steps_keep_invariant (w w1 : World) (hsteps : Steps w w1)
    (hinv : ∀ row ∈ w.rows, responseSetIffDone row)
    (hkey : (w.rows.map (fun row => row.ID)).Nodup) :
    (∀ row ∈ w1.rows, responseSetIffDone row) ∧
    (w1.rows.map (fun row => row.ID)).Nodup ∧
    (∀ row ∈ w.rows, row.Status = TaskStatus.Done → row ∈ w1.rows) := by
  induction hsteps with
  | refl => exact ⟨hinv, hkey, fun row h _ => h⟩
  | step env r taskID _ ih =>
    obtain ⟨h1, h2, h3⟩ := ih
    obtain ⟨k1, k2, k3⟩ := ProcessTask_keeps_invariant env r _ taskID h1 h2
    exact ⟨k1, k2, fun row hmem hd => k3 row (h3 row hmem hd) hd⟩

/-! ## Lemmas on request headers -/

/-- Replacing the values of a key that is present leaves the new value under it. -/
theorem lookup_replace_self (ck : String) (v : String) (h : List (String × List String))
    (hany : h.any (fun kv => kv.1 == ck) = true) :
    (h.map (fun kv => if kv.1 == ck then (ck, [v]) else kv)).lookup ck = some [v] := by
  induction h with
  | nil => simp at hany
  | cons kv h ih =>
    rcases kv with ⟨k1, b⟩
    by_cases hk : k1 = ck
    · simp [List.lookup_cons, hk]
    · have hb : (ck == k1) = false := by simp [Ne.symm hk]
      have hany2 : h.any (fun kv => kv.1 == ck) = true := by
        simpa [List.any_cons, hk] using hany
      simpa [List.lookup_cons, hk, hb] using ih hany2

/-- Appending a key that is absent puts the new value under it. -/
theorem lookup_append_self (ck : String) (v : String) (h : List (String × List String))
    (hany : h.any (fun kv => kv.1 == ck) = false) :
    (h ++ [(ck, [v])]).lookup ck = some [v] := by
  induction h with
  | nil => simp [List.lookup_cons]
  | cons kv h ih =>
    rcases kv with ⟨k1, b⟩
    have hk : ¬ k1 = ck := by
      intro hk
      simp [List.any_cons, hk] at hany
    have hb : (ck == k1) = false := by simp [Ne.symm hk]
    have hany2 : h.any (fun kv => kv.1 == ck) = false := by
      simpa [List.any_cons, hk] using hany
    simpa [List.lookup_cons, hb] using ih hany2

/-- Replacing the values of a key leaves the other keys alone. -/
theorem lookup_replace_other (ck key : String) (v : String) (h : List (String × List String))
    (hne : key ≠ ck) :
    (h.map (fun kv => if kv.1 == ck then (ck, [v]) else kv)).lookup key = h.lookup key := by
  induction h with
  | nil => rfl
  | cons kv h ih =>
    rcases kv with ⟨k1, b⟩
    have hb : (key == ck) = false := by simp [hne]
    by_cases hk : k1 = ck
    · have hb2 : (key == k1) = false := by simp [hk, hne]
      simpa [List.lookup_cons, hk, hb] using ih
    · by_cases hkey : key = k1
      · simp [List.lookup_cons, hk, hkey]
      · have hb2 : (key == k1) = false := by simp [hkey]
        simpa [List.lookup_cons, hk, hb2] using ih

/-- Appending a key leaves the other keys alone. -/
theorem lookup_append_other (ck key : String) (v : String) (h : List (String × List String))
    (hne : key ≠ ck) :
    (h ++ [(ck, [v])]).lookup key = h.lookup key := by
  have hb : (key == ck) = false := by simp [hne]
  induction h with
  | nil => simp [List.lookup_cons, hb]
  | cons kv h ih =>
    rcases kv with ⟨k1, b⟩
    by_cases hkey : key = k1
    · simp [List.lookup_cons, hkey]
    · have hb2 : (key == k1) = false := by simp [hkey]
      simpa [List.lookup_cons, hb2] using ih

/-- After `Header.Set(k, v)` the canonical key of `k` holds `v` alone. -/
theorem lookup_headerSet_self (env : Env) (h : List (String × List String)) (k v : String) :
    (headerSet env h k v).lookup (env.canonicalHeaderKey k) = some [v] := by
  unfold headerSet
  cases hany : h.any (fun kv => kv.1 == env.canonicalHeaderKey k) with
  | true => simpa [hany] using lookup_replace_self _ v h hany
  | false => simpa [hany] using lookup_append_self _ v h hany

/-- Go `Header.Set(k, v)` leaves the other canonical keys alone. -/
theorem lookup_headerSet_other (env : Env) (h : List (String × List String)) (k v key : String)
    (hne : key ≠ env.canonicalHeaderKey k) :
    (headerSet env h k v).lookup key = h.lookup key := by
  unfold headerSet
  cases hany : h.any (fun kv => kv.1 == env.canonicalHeaderKey k) with
  | true => simpa [hany] using lookup_replace_other _ key v h hne
  | false => simpa [hany] using lookup_append_other _ key v h hne

/-- Setting headers whose canonical keys are pairwise distinct, one after the other:
each canonical key holds the value set for it. -/
theorem lookup_foldl_headerSet (env : Env) (l : List (String × String))
    (hl : (l.map (fun kv => env.canonicalHeaderKey kv.1)).Nodup)
    (h : List (String × List String)) (k v : String) (hmem : (k, v) ∈ l) :
    (l.foldl (fun h kv => headerSet env h kv.1 kv.2) h).lookup (env.canonicalHeaderKey k) =
      some [v] := by
  induction l generalizing h with
  | nil => cases hmem
  | cons kv l ih =>
    simp only [List.map_cons, List.nodup_cons] at hl
    simp only [List.foldl_cons]
    rcases List.mem_cons.mp hmem with rfl | hin
    · -- the later headers have other canonical keys
      clear ih
      have hrest : ∀ (l2 : List (String × String)) (h2 : List (String × List String)),
          (∀ kv ∈ l2, env.canonicalHeaderKey kv.1 ≠ env.canonicalHeaderKey k) →
          (l2.foldl (fun h kv => headerSet env h kv.1 kv.2) h2).lookup
            (env.canonicalHeaderKey k) = h2.lookup (env.canonicalHeaderKey k) := by
        intro l2
        induction l2 with
        | nil => intro h2 _; rfl
        | cons kv2 l2 ih2 =>
          intro h2 hall
          simp only [List.foldl_cons]
          rw [ih2 _ (fun kv hkv => hall kv (List.mem_cons_of_mem _ hkv))]
          exact lookup_headerSet_other env h2 kv2.1 kv2.2 _
            (Ne.symm (hall kv2 (List.mem_cons_self _ _)))
      rw [hrest l _ ?_]
      · exact lookup_headerSet_self env h k v
      · intro kv hkv heq
        apply hl.1
        rw [← heq]
        exact List.mem_map_of_mem (fun kv => env.canonicalHeaderKey kv.1) hkv
    · exact ih hl.2 _ hin

/-- The request `makeRequest` builds, field by field. -/
theorem buildRequest_some (env : Env) (task : Task) (req : Request)
    (hreq : buildRequest env task = some req) :
    req.Method = (if task.Method = "" then "GET" else task.Method) ∧
    env.urlParse task.URL = some req.URL ∧
    req.Header =
      (task.Headers.getD []).foldl (fun h kv => headerSet env h kv.1 kv.2) [] ∧
    (task.Body = none → req.Body = none) ∧
    (∀ b, task.Body = some b → ∃ data, env.jsonMarshal b = some data ∧ req.Body = some data) := by
  unfold buildRequest at hreq
  cases hbody : task.Body with
  | none =>
    cases hv : env.validMethod (if task.Method = "" then "GET" else task.Method) <;>
      cases hu : env.urlParse task.URL <;> simp [hbody, hv, hu] at hreq
    subst hreq
    exact ⟨rfl, rfl, rfl, fun _ => rfl, fun b hb => nomatch hb⟩
  | some b =>
    cases hm : env.jsonMarshal b <;>
      cases hv : env.validMethod (if task.Method = "" then "GET" else task.Method) <;>
      cases hu : env.urlParse task.URL <;> simp [hbody, hm, hv, hu] at hreq
    subst hreq
    refine ⟨rfl, rfl, rfl, fun h => (nomatch h), fun b2 hb2 => ?_⟩
    cases hb2
    exact ⟨_, hm, rfl⟩

/-! ## Task Store: creation -/

/-- C11. For every create input, when the `INSERT` succeeds and returns an identifier
that is not yet in the table: `CreateTask` issues one `INSERT` whose columns are
`status` (with `New`), `method` and `url` (with the input's values), then `headers`
and `body` exactly when the input provides them, and no response column; it returns
the task with status `New` and the input's method, URL, headers and body; and
`GetTask` on the new identifier gives that task with no response status code, headers
or content length. -/
theorem CreateTask_stores_new (env : Env) (w : World) (input : CreateTaskInput) (id : UUID)
    (hins : env.insertReturning w.trace.length = Except.ok id)
    (hfresh : ∀ row ∈ w.rows, row.ID ≠ id)
    (hq : env.queryErr (w.trace.length + 1) = none) :
    (CreateTask env w (some input)).1.trace =
      w.trace ++
        [Event.insertTask
          ([InsertValue.status TaskStatus.New, InsertValue.method input.Method,
              InsertValue.url input.URL] ++
            (input.Headers.map InsertValue.headers).toList ++
            (input.Body.map InsertValue.body).toList)] ∧
    (CreateTask env w (some input)).2 =
      (some { ID := id, Status := TaskStatus.New, Method := input.Method, URL := input.URL,
              Headers := input.Headers, Body := input.Body }, none) ∧
    (GetTask env (CreateTask env w (some input)).1 id).2 =
      Except.ok (some
        { ID := id, Status := TaskStatus.New, Method := input.Method, URL := input.URL,
          Headers := input.Headers, Body := input.Body, ResponseStatusCode := none,
          ResponseHeaders := none, ResponseContentLength := none }) := by
  refine ⟨?_, ?_, ?_⟩
  · rcases input with ⟨m, u, h, b⟩
    cases h <;> cases b <;>
      simp [CreateTask, hins, World.emit, CreateTaskInput.setInsertValues]
  · simp [CreateTask, hins]
  · have hfind := find_append_fresh w.rows (insertedRow id input.setInsertValues) id hfresh
      (by rw [insertedRow_eq])
    simp only [CreateTask, hins, GetTask, World.emit, List.length_append, List.length_singleton,
      hq, hfind]
    rw [insertedRow_eq]

/-- Witness of C11: the input with method `GET` and URL `https://example.com`. -/
theorem CreateTask_stores_new_witness :
    (CreateTask sampleEnv sampleWorld
      (some { Method := "GET", URL := "https://example.com", Headers := none, Body := none })).1.trace =
      [Event.insertTask
        [InsertValue.status TaskStatus.New, InsertValue.method "GET",
          InsertValue.url "https://example.com"]] ∧
    (CreateTask sampleEnv sampleWorld
      (some { Method := "GET", URL := "https://example.com", Headers := none, Body := none })).2 =
      (some { ID := 8, Status := TaskStatus.New, Method := "GET", URL := "https://example.com",
              Headers := none, Body := none }, none) ∧
    (GetTask sampleEnv (CreateTask sampleEnv sampleWorld
      (some { Method := "GET", URL := "https://example.com", Headers := none, Body := none })).1 8).2 =
      Except.ok (some
        { ID := 8, Status := TaskStatus.New, Method := "GET", URL := "https://example.com",
          Headers := none, Body := none, ResponseStatusCode := none,
          ResponseHeaders := none, ResponseContentLength := none }) :=
  CreateTask_stores_new sampleEnv sampleWorld
    { Method := "GET", URL := "https://example.com", Headers := none, Body := none } 8 rfl
    (by decide) rfl

/-! ## Lemmas on the JSON form of a task identifier -/

/-- One step of reading a number from its bytes, the most significant first. -/
theorem horner_step (n j : Nat) :
    n / 256 ^ (j + 1) * 256 + n / 256 ^ j % 256 = n / 256 ^ j := by
  rw [pow_succ, ← Nat.div_div_eq_div_mul]
  exact Nat.div_add_mod' _ _

/-- The sixteen bytes of an identifier give the identifier back. -/
theorem ofBytes_bytes (id : Nat) (h : id < 2 ^ 128) : UUID.ofBytes (UUID.bytes id) = id := by
  have hb : UUID.bytes id = [UUID.byte id 0, UUID.byte id 1, UUID.byte id 2, UUID.byte id 3,
      UUID.byte id 4, UUID.byte id 5, UUID.byte id 6, UUID.byte id 7, UUID.byte id 8,
      UUID.byte id 9, UUID.byte id 10, UUID.byte id 11, UUID.byte id 12, UUID.byte id 13,
      UUID.byte id 14, UUID.byte id 15] := rfl
  have h15 : id / 256 ^ 15 % 256 = id / 256 ^ 15 :=
    Nat.mod_eq_of_lt (Nat.div_lt_of_lt_mul (by norm_num at h ⊢; exact h))
  rw [hb]
  simp only [UUID.ofBytes, List.foldl, UUID.byte, Nat.zero_mul, Nat.zero_add, Nat.sub_zero,
    Nat.reduceSub]
  rw [h15]
  rw [(horner_step id 14 : id / 256 ^ 15 * 256 + id / 256 ^ 14 % 256 = id / 256 ^ 14)]
  rw [(horner_step id 13 : id / 256 ^ 14 * 256 + id / 256 ^ 13 % 256 = id / 256 ^ 13)]
  rw [(horner_step id 12 : id / 256 ^ 13 * 256 + id / 256 ^ 12 % 256 = id / 256 ^ 12)]
  rw [(horner_step id 11 : id / 256 ^ 12 * 256 + id / 256 ^ 11 % 256 = id / 256 ^ 11)]
  rw [(horner_step id 10 : id / 256 ^ 11 * 256 + id / 256 ^ 10 % 256 = id / 256 ^ 10)]
  rw [(horner_step id 9 : id / 256 ^ 10 * 256 + id / 256 ^ 9 % 256 = id / 256 ^ 9)]
  rw [(horner_step id 8 : id / 256 ^ 9 * 256 + id / 256 ^ 8 % 256 = id / 256 ^ 8)]
  rw [(horner_step id 7 : id / 256 ^ 8 * 256 + id / 256 ^ 7 % 256 = id / 256 ^ 7)]
  rw [(horner_step id 6 : id / 256 ^ 7 * 256 + id / 256 ^ 6 % 256 = id / 256 ^ 6)]
  rw [(horner_step id 5 : id / 256 ^ 6 * 256 + id / 256 ^ 5 % 256 = id / 256 ^ 5)]
  rw [(horner_step id 4 : id / 256 ^ 5 * 256 + id / 256 ^ 4 % 256 = id / 256 ^ 4)]
  rw [(horner_step id 3 : id / 256 ^ 4 * 256 + id / 256 ^ 3 % 256 = id / 256 ^ 3)]
  rw [(horner_step id 2 : id / 256 ^ 3 * 256 + id / 256 ^ 2 % 256 = id / 256 ^ 2)]
  rw [(horner_step id 1 : id / 256 ^ 2 * 256 + id / 256 ^ 1 % 256 = id / 256 ^ 1)]
  rw [(horner_step id 0 : id / 256 ^ 1 * 256 + id / 256 ^ 0 % 256 = id / 256 ^ 0)]
  simp

/-- A hexadecimal digit of the table is read back as its value. -/
theorem hextable_xvalue (n : Nat) (h : n < 16) : xvalue (hextable n) = some n := by
  interval_cases n <;> decide

/-- A hexadecimal digit of the table stands for itself in a JSON string. -/
theorem plainChar_hextable (n : Nat) (h : n < 16) : plainChar (hextable n) = true := by
  interval_cases n <;> decide

/-- The two digits `hex.Encode` writes for a byte are read back as the byte. -/
theorem xtob_hextable (b : Nat) (h : b < 256) :
    xtob (hextable (b / 16)) (hextable (b % 16)) = some b := by
  have h1 : b / 16 < 16 := by omega
  have h2 : b % 16 < 16 := by omega
  simp only [xtob, hextable_xvalue _ h1, hextable_xvalue _ h2]
  congr 1
  omega

/-- The canonical text of sixteen bytes has 36 characters, none of which needs an
escape in JSON, and `uuid.ParseBytes` reads the bytes back from it. -/
theorem parseCanonical_encodeHex (bs : List Nat) (hlen : bs.length = 16)
    (hlt : ∀ b ∈ bs, b < 256) :
    parseCanonical (encodeHex bs) = Except.ok (UUID.ofBytes bs) ∧
    (encodeHex bs).length = 36 ∧ (encodeHex bs).all plainChar = true := by
  rcases bs with _ | ⟨b0, bs⟩
  · simp only [List.length_cons, List.length_nil] at hlen
    omega
  rcases bs with _ | ⟨b1, bs⟩
  · simp only [List.length_cons, List.length_nil] at hlen
    omega
  rcases bs with _ | ⟨b2, bs⟩
  · simp only [List.length_cons, List.length_nil] at hlen
    omega
  rcases bs with _ | ⟨b3, bs⟩
  · simp only [List.length_cons, List.length_nil] at hlen
    omega
  rcases bs with _ | ⟨b4, bs⟩
  · simp only [List.length_cons, List.length_nil] at hlen
    omega
  rcases bs with _ | ⟨b5, bs⟩
  · simp only [List.length_cons, List.length_nil] at hlen
    omega
  rcases bs with _ | ⟨b6, bs⟩
  · simp only [List.length_cons, List.length_nil] at hlen
    omega
  rcases bs with _ | ⟨b7, bs⟩
  · simp only [List.length_cons, List.length_nil] at hlen
    omega
  rcases bs with _ | ⟨b8, bs⟩
  · simp only [List.length_cons, List.length_nil] at hlen
    omega
  rcases bs with _ | ⟨b9, bs⟩
  · simp only [List.length_cons, List.length_nil] at hlen
    omega
  rcases bs with _ | ⟨b10, bs⟩
  · simp only [List.length_cons, List.length_nil] at hlen
    omega
  rcases bs with _ | ⟨b11, bs⟩
  · simp only [List.length_cons, List.length_nil] at hlen
    omega
  rcases bs with _ | ⟨b12, bs⟩
  · simp only [List.length_cons, List.length_nil] at hlen
    omega
  rcases bs with _ | ⟨b13, bs⟩
  · simp only [List.length_cons, List.length_nil] at hlen
    omega
  rcases bs with _ | ⟨b14, bs⟩
  · simp only [List.length_cons, List.length_nil] at hlen
    omega
  rcases bs with _ | ⟨b15, bs⟩
  · simp only [List.length_cons, List.length_nil] at hlen
    omega
  rcases bs with _ | ⟨x, bs⟩
  swap
  · simp only [List.length_cons] at hlen
    omega
  have h0 : b0 < 256 := hlt b0 (by simp)
  have h1 : b1 < 256 := hlt b1 (by simp)
  have h2 : b2 < 256 := hlt b2 (by simp)
  have h3 : b3 < 256 := hlt b3 (by simp)
  have h4 : b4 < 256 := hlt b4 (by simp)
  have h5 : b5 < 256 := hlt b5 (by simp)
  have h6 : b6 < 256 := hlt b6 (by simp)
  have h7 : b7 < 256 := hlt b7 (by simp)
  have h8 : b8 < 256 := hlt b8 (by simp)
  have h9 : b9 < 256 := hlt b9 (by simp)
  have h10 : b10 < 256 := hlt b10 (by simp)
  have h11 : b11 < 256 := hlt b11 (by simp)
  have h12 : b12 < 256 := hlt b12 (by simp)
  have h13 : b13 < 256 := hlt b13 (by simp)
  have h14 : b14 < 256 := hlt b14 (by simp)
  have h15 : b15 < 256 := hlt b15 (by simp)
  refine ⟨?_, ?_, ?_⟩
  · simp [parseCanonical, readPairs, encodeHex, hexEncode, xtob_hextable, h0, h1, h2, h3, h4, h5, h6, h7, h8, h9, h10, h11, h12, h13, h14, h15]
  · simp [encodeHex, hexEncode]
  · have hp : ∀ b, b < 256 → plainChar (hextable (b / 16)) = true ∧
        plainChar (hextable (b % 16)) = true := fun b hb =>
      ⟨plainChar_hextable _ (by omega), plainChar_hextable _ (by omega)⟩
    have hd : plainChar '-' = true := by decide
    simp [encodeHex, hexEncode, hd, hp _ h0, hp _ h1, hp _ h2, hp _ h3, hp _ h4, hp _ h5,
      hp _ h6, hp _ h7, hp _ h8, hp _ h9, hp _ h10, hp _ h11, hp _ h12, hp _ h13, hp _ h14,
      hp _ h15]

/-- Every byte of an identifier is below 256 and there are sixteen of them. -/
theorem bytes_shape (id : UUID) : (UUID.bytes id).length = 16 ∧ ∀ b ∈ UUID.bytes id, b < 256 := by
  refine ⟨by simp [UUID.bytes], ?_⟩
  intro b hb
  simp only [UUID.bytes, List.mem_map] at hb
  obtain ⟨i, _, rfl⟩ := hb
  exact Nat.mod_lt _ (by decide)

/-- The body `json.Marshal` writes for an identifier is a plain string literal, whose
text is the canonical form. -/
theorem plainLiteral_marshalUUID (id : UUID) :
    plainLiteral (marshalUUID id) = some id.MarshalText := by
  have hall := (parseCanonical_encodeHex (UUID.bytes id) (bytes_shape id).1 (bytes_shape id).2).2.2
  simp only [plainLiteral, marshalUUID, String.toList, List.getLast?_append, List.dropLast_concat]
  simp [UUID.MarshalText, hall]

/-- Round trip of the JSON form: `json.Unmarshal` reads back the identifier that
`json.Marshal` wrote, whatever the output held. -/
theorem unmarshalUUID_marshalUUID (other : String → UUID → Except Err UUID) (id output : UUID)
    (hid : id < 2 ^ 128) : unmarshalUUID other (marshalUUID id) output = Except.ok id := by
  obtain ⟨hparse, hlen, _⟩ :=
    parseCanonical_encodeHex (UUID.bytes id) (bytes_shape id).1 (bytes_shape id).2
  simp only [unmarshalUUID, plainLiteral_marshalUUID, UUID.MarshalText, hlen, if_true, hparse]
  rw [ofBytes_bytes id hid]

/-! ## Queue Transport: the payload -/

/-- C12. Round trip of the queue payload, with the JSON form of the identifier as
`encoding/json` and `google/uuid` produce and read it. For every task identifier (a
value of sixteen bytes), `SendMessage` sends the quoted canonical text as the message
body, with no envelope; and `DecodeMessage`, on a message with that body whose receive
count is within the limit, returns success with exactly the identifier, whatever the
output held, and leaves the world as it is: no delete is issued. -/
theorem SendMessage_DecodeMessage_roundtrip (env : Env) (svc : Service) (w w2 : World)
    (queue queueURL : Option String) (id output : UUID) (message : Message)
    (hid : id < 2 ^ 128)
    (hbody : message.Body = some (marshalUUID id))
    (hin : svc.cfg.Debug = true ∨
      message.Attributes.lookup MessageSystemAttributeNameApproximateReceiveCount = none ∨
      ∃ rc, message.Attributes.lookup MessageSystemAttributeNameApproximateReceiveCount =
          some (some rc) ∧ Atoi rc ≤ svc.cfg.MaxMessageAttempts) :
    Service.SendMessage env.withUUIDCodec svc w queue id =
      (w.emit (Event.sendMessage queue (marshalUUID id)), env.sqsSend w.trace.length) ∧
    Service.DecodeMessage env.withUUIDCodec svc w2 queueURL message output =
      (w2, Outcome.ret (none, id)) := by
  refine ⟨?_, ?_⟩
  · simp [Service.SendMessage, Env.withUUIDCodec]
  · rw [DecodeMessage_within_limit env.withUUIDCodec svc w2 queueURL message output hin]
    simp [Service.decodeBody, hbody, Env.withUUIDCodec, unmarshalUUID_marshalUUID _ id output hid]

/-- Witness of C12: task `7`, first delivery. -/
theorem SendMessage_DecodeMessage_roundtrip_witness :
    Service.SendMessage sampleEnv.withUUIDCodec sampleService sampleWorld
        (some "sqs://task-queue") 7 =
      (sampleWorld.emit (Event.sendMessage (some "sqs://task-queue")
        "\"00000000-0000-0000-0000-000000000007\""), none) ∧
    Service.DecodeMessage sampleEnv.withUUIDCodec sampleService sampleWorld
      (some "sqs://task-queue")
      { sampleMessage "1" with Body := some "\"00000000-0000-0000-0000-000000000007\"" }
      uuidNil = (sampleWorld, Outcome.ret (none, 7)) :=
  SendMessage_DecodeMessage_roundtrip sampleEnv sampleService sampleWorld sampleWorld
    (some "sqs://task-queue") (some "sqs://task-queue") 7 uuidNil
    { sampleMessage "1" with Body := some "\"00000000-0000-0000-0000-000000000007\"" }
    (by decide) (by decide) (Or.inr (Or.inr ⟨"1", rfl, by decide⟩))

/-! ## Task Processor: the statuses a run writes -/

/-- C13. For every table, task identifier and behaviour of the collaborators (outcome
of the load, of the outbound call and of each store write), the statuses of the
`UPDATE` statements a run of `ProcessTask` issues, in order, are none at all, or
`InProcess` then `Done`, or `InProcess` then `Error`. So a run never writes `New`,
the first status it writes is `InProcess`, `Done` or `Error` is written only after
`InProcess`, and at most one of `Done` and `Error` is written. -/
theorem ProcessTask_written_statuses (env : Env) (r : processor) (w : World) (taskID : UUID) :
    ∃ new : List Event,
      (processor.ProcessTask env r w taskID).1.trace = w.trace ++ new ∧
      (writtenStatuses new = [] ∨
        writtenStatuses new = [TaskStatus.InProcess, TaskStatus.Done] ∨
        writtenStatuses new = [TaskStatus.InProcess, TaskStatus.Error]) ∧
      TaskStatus.New ∉ writtenStatuses new ∧
      (∀ s, (writtenStatuses new).head? = some s → s = TaskStatus.InProcess) ∧
      (TaskStatus.Done ∈ writtenStatuses new ∨ TaskStatus.Error ∈ writtenStatuses new →
        (writtenStatuses new).head? = some TaskStatus.InProcess) ∧
      ¬ (TaskStatus.Done ∈ writtenStatuses new ∧ TaskStatus.Error ∈ writtenStatuses new) := by
  have key : ∃ new : List Event,
      (processor.ProcessTask env r w taskID).1.trace = w.trace ++ new ∧
      (writtenStatuses new = [] ∨
        writtenStatuses new = [TaskStatus.InProcess, TaskStatus.Done] ∨
        writtenStatuses new = [TaskStatus.InProcess, TaskStatus.Error]) := by
    rcases ProcessTask_shape env r w taskID with ⟨_, htrace⟩ |
      ⟨task, mid, last, rows1, _, _, htrace, hmid, hlast, _, _⟩
    · exact ⟨_, htrace, Or.inl rfl⟩
    · refine ⟨_, htrace, Or.inr ?_⟩
      rcases hmid with rfl | ⟨req, rfl⟩ <;> rcases hlast with rfl | ⟨resp, rfl⟩ <;>
        simp [writtenStatuses, statusUpdate, doneUpdate]
  obtain ⟨new, htrace, hws⟩ := key
  refine ⟨new, htrace, hws, ?_, ?_, ?_, ?_⟩ <;> rcases hws with h | h | h <;> simp [h]

/-- C14. Invariant of the task store under sequential processing. In every table `w`
reached from a table of freshly created tasks (status `New`, no response fields,
pairwise distinct identifiers) by a sequence of `ProcessTask` invocations, each with
collaborators of its own (any outbound outcome, any success or failure of each store
write), the response status code and the content length of a task are set if and
only if its status is `Done`; and a task that has them set is found unchanged, field
by field, in every table reached from `w` by further invocations. -/
theorem store_invariant (w0 w w1 : World) (hinit : w0.initial) (hreach : Steps w0 w)
    (hlater : Steps w w1) :
    (∀ row ∈ w.rows, responseSetIffDone row) ∧
    (∀ row ∈ w.rows, (row.ResponseStatusCode ≠ none ∨ row.ResponseContentLength ≠ none) →
      w1.rows.find? (fun x => x.ID == row.ID) = some row) := by
  have hinv0 : ∀ row ∈ w0.rows, responseSetIffDone row := by
    intro row hmem
    obtain ⟨hs, hc, _, hl⟩ := hinit.1 row hmem
    simp [responseSetIffDone, hs, hc, hl]
  obtain ⟨hinv, hkey, _⟩ := Steps_keep_invariant w0 w hreach hinv0 hinit.2
  obtain ⟨_, hkey1, hkeep⟩ := Steps_keep_invariant w w1 hlater hinv hkey
  refine ⟨hinv, ?_⟩
  intro row hmem hset
  have hd : row.Status = TaskStatus.Done := by
    rcases hset with h | h
    · exact (hinv row hmem).1.mp h
    · exact (hinv row hmem).2.mp h
  exact find_eq_of_nodup w1.rows hkey1 row (hkeep row hmem hd)

/-- Witness of C14: the sample task processed to `Done`, then processed again with a
failing HTTP client. -/
theorem store_invariant_witness :
    (∀ row ∈ (processor.ProcessTask sampleEnv sampleProcessor sampleWorld 7).1.rows,
      responseSetIffDone row) ∧
    (∀ row ∈ (processor.ProcessTask sampleEnv sampleProcessor sampleWorld 7).1.rows,
      (row.ResponseStatusCode ≠ none ∨ row.ResponseContentLength ≠ none) →
      (processor.ProcessTask failingHttpEnv sampleProcessor
        (processor.ProcessTask sampleEnv sampleProcessor sampleWorld 7).1 7).1.rows.find?
          (fun x => x.ID == row.ID) = some row) :=
  store_invariant sampleWorld (processor.ProcessTask sampleEnv sampleProcessor sampleWorld 7).1
    (processor.ProcessTask failingHttpEnv sampleProcessor
      (processor.ProcessTask sampleEnv sampleProcessor sampleWorld 7).1 7).1
    ⟨fun row hrow => by
        have h : row = sampleTask := by simpa [sampleWorld] using hrow
        subst h
        exact ⟨rfl, rfl, rfl, rfl⟩,
      by decide⟩
    (Steps.step sampleEnv sampleProcessor 7 (Steps.refl sampleWorld))
    (Steps.step failingHttpEnv sampleProcessor 7 (Steps.refl _))

/-! ## Task Processor: the outbound request -/

/-- Counterexample to C15. With two stored headers whose names differ only by case,
`a: 1` and `A: 2`, the request carries one header `A: 2`, so the stored header `a` is
not carried with its stored value; and a task stored with an empty method is sent
as `GET`. -/
theorem makeRequest_header_collision :
    buildRequest canonicalEnv collidingTask = some collidingRequest ∧
    ¬ (∀ kv ∈ collidingTask.Headers.getD [],
        headerGet canonicalEnv collidingRequest.Header kv.1 = kv.2) ∧
    buildRequest canonicalEnv noMethodTask = some noMethodRequest ∧
    noMethodRequest.Method ≠ noMethodTask.Method := by
  refine ⟨rfl, ?_, rfl, by decide⟩
  intro h
  have h1 := h ("a", "1") (by decide)
  revert h1
  decide

/-- C15, amended. For every task whose stored header names remain pairwise distinct
once canonicalised, the request `makeRequest` issues has the stored method (`GET`
when the stored method is empty) and the URL parsed from the stored URL, gives for
every stored header name its stored value, and has as body the JSON serialisation
of the stored body when there is one and no body otherwise; and the response of the
client is returned to the caller as it is. -/
theorem makeRequest_request (env : Env) (w : World) (task : Task) (req : Request)
    (hreq : buildRequest env task = some req)
    (hkeys : ((task.Headers.getD []).map (fun kv => env.canonicalHeaderKey kv.1)).Nodup) :
    req.Method = (if task.Method = "" then "GET" else task.Method) ∧
    env.urlParse task.URL = some req.URL ∧
    (∀ kv ∈ task.Headers.getD [], headerGet env req.Header kv.1 = kv.2) ∧
    (task.Body = none → req.Body = none) ∧
    (∀ b, task.Body = some b → ∃ data, env.jsonMarshal b = some data ∧ req.Body = some data) ∧
    (∀ resp, env.clientDo w.trace.length req = Except.ok resp →
      processor.makeRequest env w task = (w.emit (Event.httpDo req), some resp, none)) := by
  obtain ⟨hm, hu, hh, hb1, hb2⟩ := buildRequest_some env task req hreq
  refine ⟨hm, hu, ?_, hb1, hb2, ?_⟩
  · intro kv hkv
    simp only [headerGet]
    rw [hh, lookup_foldl_headerSet env _ hkeys [] kv.1 kv.2 hkv]
  · intro resp hresp
    simp [processor.makeRequest, hreq, hresp]

/-- Witness of the amended C15: the sample task and its request. -/
theorem makeRequest_request_witness :
    sampleRequest.Method = (if sampleTask.Method = "" then "GET" else sampleTask.Method) ∧
    sampleEnv.urlParse sampleTask.URL = some sampleRequest.URL ∧
    (∀ kv ∈ sampleTask.Headers.getD [], headerGet sampleEnv sampleRequest.Header kv.1 = kv.2) ∧
    (sampleTask.Body = none → sampleRequest.Body = none) ∧
    (∀ b, sampleTask.Body = some b →
      ∃ data, sampleEnv.jsonMarshal b = some data ∧ sampleRequest.Body = some data) ∧
    (∀ resp, sampleEnv.clientDo sampleWorld.trace.length sampleRequest = Except.ok resp →
      processor.makeRequest sampleEnv sampleWorld sampleTask.toTask =
        (sampleWorld.emit (Event.httpDo sampleRequest), some resp, none)) :=
  makeRequest_request sampleEnv sampleWorld sampleTask.toTask sampleRequest rfl (by decide)

/-! ## Task Processor: failures -/

/-- C16 at its failing input: the sample task, the load, the `InProcess` write and the
outbound call succeeding, the write of the `Done` transition failing. The run returns
the error of the write, its calls are the load, the `InProcess` update, the request
and the `Done` update, so no write of status `Error` is attempted, and the stored
status stays `InProcess`. -/
theorem ProcessTask_done_write_fails :
    processor.ProcessTask lateWriteFailsEnv sampleProcessor sampleWorld 7 =
      ({ rows := [{ sampleTask with Status := TaskStatus.InProcess }]
         trace := [Event.getTask 7, Event.updateTask (statusUpdate 7 TaskStatus.InProcess),
           Event.httpDo sampleRequest, Event.updateTask (doneUpdate 7 sampleResponse)]
         logs := [] },
        Outcome.ret (some (Err.external "update failed"))) ∧
    TaskStatus.Error ∉
      writtenStatuses (processor.ProcessTask lateWriteFailsEnv sampleProcessor sampleWorld 7).1.trace ∧
    ((processor.ProcessTask lateWriteFailsEnv sampleProcessor sampleWorld 7).1.rows.find?
      (fun row => row.ID == 7)).map (fun row => row.Status) = some TaskStatus.InProcess := by
  decide

/-- C17. For every stored task that is not `Done`, loaded without error, if the
`UpdateTask` of the `InProcess` transition returns the error `e`, then `ProcessTask`
returns `e`, and among the calls of the run there is no outbound request and no
`UPDATE` with status `Done`. -/
theorem ProcessTask_inprocess_write_fails (env : Env) (r : processor) (w : World)
    (taskID : UUID) (task : TaskWithResponseData) (e : Err)
    (hfind : w.rows.find? (fun row => row.ID == taskID) = some task)
    (hstatus : task.Status ≠ TaskStatus.Done)
    (hq : env.queryErr w.trace.length = none)
    (hfail : (UpdateTask env (w.emit (Event.getTask taskID))
      (statusUpdate taskID TaskStatus.InProcess)).2 = some e) :
    (processor.ProcessTask env r w taskID).2 = Outcome.ret (some e) ∧
    ∃ new : List Event,
      (processor.ProcessTask env r w taskID).1.trace = w.trace ++ new ∧
      (∀ req, Event.httpDo req ∉ new) ∧
      TaskStatus.Done ∉ writtenStatuses new := by
  have hID : task.ID = taskID := find_ID hfind
  subst hID
  by_cases hid : task.ID = uuidNil
  · have hfind2 := hfind
    rw [hid] at hfind2
    have he : Err.new "input is nil or id is empty" = e := by
      simpa [UpdateTask, statusUpdate, hid] using hfail
    subst he
    refine ⟨?_, [Event.getTask task.ID], ?_, ?_, ?_⟩ <;>
      simp [processor.ProcessTask, GetTask, hq, hfind2, hstatus, processor.processLoaded,
        processor.updateTask, UpdateTask, hid, UpdateTaskInput.setUpdateFields, World.emit,
        World.Error, statusUpdate, writtenStatuses]
  · cases he1 : env.execErr (w.trace.length + 1) with
    | none =>
      simp [UpdateTask, statusUpdate, hid, UpdateTaskInput.setUpdateFields, World.emit, he1]
        at hfail
    | some e1 =>
      have he : e1 = e := by
        simpa [UpdateTask, statusUpdate, hid, UpdateTaskInput.setUpdateFields, World.emit, he1]
          using hfail
      subst he
      cases he2 : env.execErr (w.trace.length + 2) <;>
        refine ⟨?_, [Event.getTask task.ID,
          Event.updateTask (statusUpdate task.ID TaskStatus.InProcess),
          Event.updateTask (statusUpdate task.ID TaskStatus.Error)], ?_, ?_, ?_⟩ <;>
        simp [processor.ProcessTask, GetTask, hq, hfind, hstatus, processor.processLoaded,
          processor.updateTask, UpdateTask, hid, UpdateTaskInput.setUpdateFields, World.emit,
          World.Error, statusUpdate, writtenStatuses, he1, he2]

/-- Witness of C17: a database that refuses every statement. -/
theorem ProcessTask_inprocess_write_fails_witness :
    (processor.ProcessTask
      { sampleEnv with execErr := fun _ => some (Err.external "update failed") }
      sampleProcessor sampleWorld 7).2 = Outcome.ret (some (Err.external "update failed")) ∧
    ∃ new : List Event,
      (processor.ProcessTask
        { sampleEnv with execErr := fun _ => some (Err.external "update failed") }
        sampleProcessor sampleWorld 7).1.trace = sampleWorld.trace ++ new ∧
      (∀ req, Event.httpDo req ∉ new) ∧
      TaskStatus.Done ∉ writtenStatuses new :=
  ProcessTask_inprocess_write_fails
    { sampleEnv with execErr := fun _ => some (Err.external "update failed") }
    sampleProcessor sampleWorld 7 sampleTask (Err.external "update failed") rfl (by decide) rfl rfl

/-- Counterexample to C18: the outbound call fails with `request failed` and the write
of status `Error` fails with `update failed`; `ProcessTask` returns `request failed`,
which neither is nor wraps `update failed`. -/
theorem ProcessTask_returns_outbound_error_only :
    (processor.ProcessTask failingHttpAndWriteEnv sampleProcessor sampleWorld 7).2 =
      Outcome.ret (some (Err.external "request failed")) ∧
    failingHttpAndWriteEnv.execErr 3 = some (Err.external "update failed") ∧
    Err.surfaces (Err.external "request failed") (Err.external "update failed") = false := by
  decide

/-- C18, amended. When the outbound call fails with `e` and the secondary store write
of status `Error` fails too, `ProcessTask` returns exactly `e`; the failure of the
write is not part of the returned error, it is written to the log of the run as
`failed to update task status`. -/
theorem ProcessTask_logs_error_write_failure (env : Env) (r : processor) (w : World)
    (taskID : UUID) (task : TaskWithResponseData) (req : Request) (e persistErr : Err)
    (hfind : w.rows.find? (fun row => row.ID == taskID) = some task)
    (hstatus : task.Status ≠ TaskStatus.Done)
    (hid : taskID ≠ uuidNil)
    (hq : env.queryErr w.trace.length = none)
    (hexec1 : env.execErr (w.trace.length + 1) = none)
    (hreq : buildRequest env task.toTask = some req)
    (hdo : env.clientDo (w.trace.length + 2) req = Except.error e)
    (hexec2 : env.execErr (w.trace.length + 3) = some persistErr) :
    (processor.ProcessTask env r w taskID).2 = Outcome.ret (some e) ∧
    (processor.ProcessTask env r w taskID).1.logs =
      w.logs ++
        [{ level := Level.error
           fields := r.logger.fields ++ [Field.uuid "task_id" taskID, Field.error persistErr]
           msg := "failed to update task status" }] ∧
    (processor.ProcessTask env r w taskID).1.trace =
      w.trace ++
        [Event.getTask taskID, Event.updateTask (statusUpdate taskID TaskStatus.InProcess),
          Event.httpDo req, Event.updateTask (statusUpdate taskID TaskStatus.Error)] := by
  have hID := find_ID hfind
  subst hID
  refine ⟨?_, ?_, ?_⟩ <;>
    simp [processor.ProcessTask, GetTask, hq, hfind, hstatus, processor.processLoaded,
      processor.updateTask, UpdateTask, hid, UpdateTaskInput.setUpdateFields, World.emit,
      World.Error, hexec1, processor.makeRequest, buildRequest_status, hreq, hdo, hexec2,
      statusUpdate, Logger.With]

/-- Witness of the amended C18: the sample task, failing client, failing `Error` write. -/
theorem ProcessTask_logs_error_write_failure_witness :
    (processor.ProcessTask failingHttpAndWriteEnv sampleProcessor sampleWorld 7).2 =
      Outcome.ret (some (Err.external "request failed")) ∧
    (processor.ProcessTask failingHttpAndWriteEnv sampleProcessor sampleWorld 7).1.logs =
      sampleWorld.logs ++
        [{ level := Level.error
           fields := sampleProcessor.logger.fields ++
            [Field.uuid "task_id" 7, Field.error (Err.external "update failed")]
           msg := "failed to update task status" }] ∧
    (processor.ProcessTask failingHttpAndWriteEnv sampleProcessor sampleWorld 7).1.trace =
      sampleWorld.trace ++
        [Event.getTask 7, Event.updateTask (statusUpdate 7 TaskStatus.InProcess),
          Event.httpDo sampleRequest, Event.updateTask (statusUpdate 7 TaskStatus.Error)] :=
  ProcessTask_logs_error_write_failure failingHttpAndWriteEnv sampleProcessor sampleWorld 7
    sampleTask sampleRequest (Err.external "request failed") (Err.external "update failed")
    rfl (by decide) (by decide) rfl rfl rfl rfl rfl

/-- C19 at its failing input: a task whose URL has no scheme, so that no request can
be built. `makeRequest` returns a nil response with a nil error, `ProcessTask` panics
on the nil response instead of returning an error; the deferred update has written
status `Error`. -/
theorem ProcessTask_unbuildable_request_panics :
    processor.ProcessTask strictURLEnv sampleProcessor badURLWorld 7 =
      ({ rows := [{ badURLTask with Status := TaskStatus.Error }]
         trace := [Event.getTask 7, Event.updateTask (statusUpdate 7 TaskStatus.InProcess),
           Event.updateTask (statusUpdate 7 TaskStatus.Error)]
         logs := [] },
        Outcome.panic "nil pointer dereference") ∧
    buildRequest strictURLEnv badURLTask.toTask = none ∧
    ¬ ∃ e : Err, (processor.ProcessTask strictURLEnv sampleProcessor badURLWorld 7).2 =
      Outcome.ret (some e) := by
  refine ⟨by decide, by decide, ?_⟩
  rintro ⟨e, he⟩
  have h : (processor.ProcessTask strictURLEnv sampleProcessor badURLWorld 7).2 =
      Outcome.panic "nil pointer dereference" := by decide
  rw [h] at he
  cases he

/-! ## Dispatcher: a panic in a pool member -/

/-- C21. The receive request. `receiveMessages` calls the receiver's `GetMessages`
once, with an input whose queue URL is the worker's, whose batch size is the worker
count, whose wait is 10 seconds, whose visibility timeout is the receiver's visibility
timeout divided by `time.Second` (the whole seconds of a timeout that is not
negative: 300 for 5 minutes, 1200 for 20 minutes) and whose only attribute name is
`ApproximateReceiveCount`; the context of the call is derived with a timeout of 20
seconds. -/
theorem receiveMessages_request {R P : Type} (recv : messageReceiver R) (wk : Worker R P)
    (w : World) :
    Worker.receiveMessages recv wk w =
      recv.GetMessages wk.receiver w (wk.receiveCall recv).input ∧
    (wk.receiveCall recv).input.QueueUrl = some wk.queueURL ∧
    (wk.receiveCall recv).input.MaxNumberOfMessages = wk.workers ∧
    (wk.receiveCall recv).input.WaitTimeSeconds = 10 ∧
    (wk.receiveCall recv).input.VisibilityTimeout =
      (recv.VisibilityTimeout wk.receiver).tdiv timeSecond ∧
    (0 ≤ recv.VisibilityTimeout wk.receiver →
      (wk.receiveCall recv).input.VisibilityTimeout * timeSecond ≤
        recv.VisibilityTimeout wk.receiver ∧
      recv.VisibilityTimeout wk.receiver <
        ((wk.receiveCall recv).input.VisibilityTimeout + 1) * timeSecond) ∧
    (recv.VisibilityTimeout wk.receiver = 5 * 60 * timeSecond →
      (wk.receiveCall recv).input.VisibilityTimeout = 300) ∧
    (recv.VisibilityTimeout wk.receiver = 20 * 60 * timeSecond →
      (wk.receiveCall recv).input.VisibilityTimeout = 1200) ∧
    (wk.receiveCall recv).input.AttributeNames =
      [MessageSystemAttributeNameApproximateReceiveCount] ∧
    MessageSystemAttributeNameApproximateReceiveCount = "ApproximateReceiveCount" ∧
    (wk.receiveCall recv).timeout = 20 * timeSecond := by
  refine ⟨rfl, rfl, rfl, rfl, rfl, ?_, ?_, ?_, rfl, rfl, rfl⟩
  · intro h
    have hd : (recv.VisibilityTimeout wk.receiver).tdiv 1000000000 =
        recv.VisibilityTimeout wk.receiver / 1000000000 :=
      Int.tdiv_eq_ediv h (by decide)
    simp only [Worker.receiveCall, timeSecond, hd]
    omega
  · intro h
    simp only [Worker.receiveCall, h, timeSecond]
    decide
  · intro h
    simp only [Worker.receiveCall, h, timeSecond]
    decide

/-- Witness of C21: the sample worker over the service configured with five minutes
asks for 300 seconds, the whole seconds of that timeout, and over a service configured
with twenty minutes for 1200. -/
theorem receiveMessages_request_witness :
    (Worker.receiveMessages (Service.asReceiver sampleEnv) sampleWorker sampleWorld).1.trace =
      [Event.receiveMessage
        { QueueUrl := some "sqs://task-queue"
          MaxNumberOfMessages := 3
          WaitTimeSeconds := 10
          VisibilityTimeout := 300
          AttributeNames := ["ApproximateReceiveCount"] }] ∧
    (sampleWorker.receiveCall (Service.asReceiver sampleEnv)).input.VisibilityTimeout = 300 ∧
    ({ sampleWorker with receiver := twentyMinuteService }.receiveCall
      (Service.asReceiver sampleEnv)).input.VisibilityTimeout = 1200 ∧
    ((sampleWorker.receiveCall (Service.asReceiver sampleEnv)).input.VisibilityTimeout *
        timeSecond ≤ (Service.asReceiver sampleEnv).VisibilityTimeout sampleWorker.receiver ∧
      (Service.asReceiver sampleEnv).VisibilityTimeout sampleWorker.receiver <
        ((sampleWorker.receiveCall (Service.asReceiver sampleEnv)).input.VisibilityTimeout + 1) *
          timeSecond) :=
  ⟨by decide,
   (receiveMessages_request (Service.asReceiver sampleEnv) sampleWorker sampleWorld).2.2.2.2.2.2.1
     (by decide),
   (receiveMessages_request (Service.asReceiver sampleEnv)
     { sampleWorker with receiver := twentyMinuteService } sampleWorld).2.2.2.2.2.2.2.1
     (by decide),
   (receiveMessages_request (Service.asReceiver sampleEnv) sampleWorker sampleWorld).2.2.2.2.2.1
     (by decide)⟩

/-! ## Lemmas on overlapping invocations -/

/-- Five steps of the step function are one invocation of `ProcessTask`: the same
world and the same result. -/
theorem steps_ProcessTask (env : Env) (r : processor) (w : World) (taskID : UUID) :
    ∃ t, processor.steps env r taskID 5 (w, RunState.start) =
      ((processor.ProcessTask env r w taskID).1,
        RunState.finished t (processor.ProcessTask env r w taskID).2) := by
  simp only [processor.steps, processor.ProcessTask]
  cases hq : env.queryErr w.trace.length with
  | some e => simp [processor.step, GetTask, hq]
  | none =>
    cases hfind : w.rows.find? (fun row => row.ID == taskID) with
    | none => simp [processor.step, GetTask, hq, hfind]
    | some task =>
      by_cases hd : task.Status = TaskStatus.Done
      · simp [processor.step, GetTask, hq, hfind, hd]
      · simp only [processor.step, GetTask, hq, hfind, hd, processor.processLoaded, statusUpdate,
          doneUpdate, if_false]
        generalize processor.updateTask env (w.emit (Event.getTask taskID)) task _ = u1
        rcases h1 : u1.out with (_ | e) | p
        · simp only [h1]
          rcases h2 : processor.makeRequest env u1.world u1.task.toTask with ⟨w2, _ | resp, _ | e⟩
          · simp only [h2]
            generalize processor.updateTask env w2 u1.task _ = d
            rcases h3 : d.out with (_ | e) | p <;> simp [h3]
          · simp only [h2]
            generalize processor.updateTask env w2 u1.task _ = d
            rcases h3 : d.out with (_ | e) | p <;> simp [h3]
          · simp only [h2]
            generalize processor.updateTask env w2 u1.task _ = u2
            generalize processor.updateTask env u2.world u2.task _ = d
            rcases h3 : d.out with (_ | e) | p <;> simp [h3]
          · simp only [h2]
            generalize processor.updateTask env w2 u1.task _ = d
            rcases h3 : d.out with (_ | e) | p <;> simp [h3]
        · simp only [h1]
          generalize processor.updateTask env u1.world u1.task _ = d
          rcases h3 : d.out with (_ | e) | p <;> simp [h3]
        · simp only [h1]
          generalize processor.updateTask env u1.world u1.task _ = d
          rcases h3 : d.out with (_ | e) | p <;> simp [h3]

/-- C23. `updateTask` after the task is done, and before. On a task whose in-memory
status is `Done` it returns nil and leaves the world, the task and the update as they
are. On a task that is not `Done`, with an update that carries a status, it sets the
identifier of the update to the task's, sets the in-memory status and the three
response fields to the update's, and calls the repository's `UpdateTask` once on the
update: the world and the error are those of that call, which issues one `UPDATE`
when the identifier is not `uuid.Nil`. -/
theorem updateTask_safe_after_done (env : Env) (w : World) (task : TaskWithResponseData)
    (input : UpdateTaskInput) :
    (task.Status = TaskStatus.Done →
      processor.updateTask env w task input =
        { world := w, task := task, input := input, out := Outcome.ret none }) ∧
    (∀ s : TaskStatus, task.Status ≠ TaskStatus.Done → input.Status = some s →
      (processor.updateTask env w task input).input = { input with ID := task.ID } ∧
      (processor.updateTask env w task input).task =
        { task with
          Status := s
          ResponseStatusCode := input.ResponseStatusCode
          ResponseHeaders := input.ResponseHeaders
          ResponseContentLength := input.ResponseContentLength } ∧
      (processor.updateTask env w task input).world =
        (UpdateTask env w { input with ID := task.ID }).1 ∧
      (processor.updateTask env w task input).out =
        Outcome.ret (UpdateTask env w { input with ID := task.ID }).2 ∧
      (task.ID ≠ uuidNil →
        (processor.updateTask env w task input).world.trace =
          w.trace ++ [Event.updateTask { input with ID := task.ID }])) := by
  refine ⟨fun hd => by simp [processor.updateTask, hd], ?_⟩
  intro s hnd hs
  refine ⟨?_, ?_, ?_, ?_, ?_⟩
  · simp [processor.updateTask, hnd, hs]
  · simp [processor.updateTask, hnd, hs]
  · simp [processor.updateTask, hnd, hs]
  · simp [processor.updateTask, hnd, hs]
  · intro hid
    cases he : env.execErr w.trace.length <;>
      simp [processor.updateTask, hnd, hs, UpdateTask, hid, UpdateTaskInput.setUpdateFields,
        World.emit, he]

/-- Witness of C23, the sequence of `Test_updateTask`: after `in_process` and `done`,
the `error` update returns nil and changes nothing; the in-memory and the stored
status are `Done`. The `in_process` update of the fresh task issues one `UPDATE`. -/
theorem updateTask_safe_after_done_witness :
    processor.updateTask sampleEnv
        (processor.updateTaskSeq sampleEnv sampleWorld sampleTask
          [statusUpdate uuidNil TaskStatus.InProcess, statusUpdate uuidNil TaskStatus.Done]).1
        (processor.updateTaskSeq sampleEnv sampleWorld sampleTask
          [statusUpdate uuidNil TaskStatus.InProcess, statusUpdate uuidNil TaskStatus.Done]).2
        (statusUpdate uuidNil TaskStatus.Error) =
      { world := (processor.updateTaskSeq sampleEnv sampleWorld sampleTask
          [statusUpdate uuidNil TaskStatus.InProcess, statusUpdate uuidNil TaskStatus.Done]).1
        task := (processor.updateTaskSeq sampleEnv sampleWorld sampleTask
          [statusUpdate uuidNil TaskStatus.InProcess, statusUpdate uuidNil TaskStatus.Done]).2
        input := statusUpdate uuidNil TaskStatus.Error
        out := Outcome.ret none } ∧
    (processor.updateTaskSeq sampleEnv sampleWorld sampleTask
      [statusUpdate uuidNil TaskStatus.InProcess, statusUpdate uuidNil TaskStatus.Done,
        statusUpdate uuidNil TaskStatus.Error]).2.Status = TaskStatus.Done ∧
    ((processor.updateTaskSeq sampleEnv sampleWorld sampleTask
      [statusUpdate uuidNil TaskStatus.InProcess, statusUpdate uuidNil TaskStatus.Done,
        statusUpdate uuidNil TaskStatus.Error]).1.rows.find? (fun row => row.ID == 7)).map
      (fun row => row.Status) = some TaskStatus.Done ∧
    (processor.updateTask sampleEnv sampleWorld sampleTask
      (statusUpdate uuidNil TaskStatus.InProcess)).world.trace =
      sampleWorld.trace ++
        [Event.updateTask { statusUpdate uuidNil TaskStatus.InProcess with ID := sampleTask.ID }] :=
  ⟨(updateTask_safe_after_done sampleEnv _ _ (statusUpdate uuidNil TaskStatus.Error)).1
      (by decide),
   by decide, by decide,
   ((updateTask_safe_after_done sampleEnv sampleWorld sampleTask
      (statusUpdate uuidNil TaskStatus.InProcess)).2 TaskStatus.InProcess (by decide)
      rfl).2.2.2.2 (by decide)⟩

/-! ## Queue Transport: the cause of a decode error -/

/-- C24. A message within the attempt limit whose body does not parse and whose
deletion succeeds. `DecodeMessage` assigns the result of `DeleteMessage`, nil, to the
variable that held the parse error before it wraps that variable: the error returned
wraps nil, and unwrapping it yields nothing, not the parse error of `json.Unmarshal`. -/
theorem DecodeMessage_wraps_nil :
    Service.DecodeMessage sampleEnv sampleService sampleWorld (some "sqs://task-queue")
        { sampleMessage "1" with Body := some "not json" } uuidNil =
      (sampleWorld.emit (Event.deleteMessage (some "sqs://task-queue") (some "handle")),
        Outcome.ret (some (Err.wrapNil "unable to decode the message"), uuidNil)) ∧
    sampleEnv.jsonUnmarshal "not json" uuidNil = Except.error (Err.external "invalid UUID") ∧
    sampleEnv.sqsDelete sampleWorld.trace.length = none ∧
    (Err.wrapNil "unable to decode the message").Unwrap = none ∧
    (Err.wrapNil "unable to decode the message").Unwrap ≠ some (Err.external "invalid UUID") := by
  refine ⟨by decide, rfl, rfl, rfl, by decide⟩

end Requester
